import Mathlib

/-!
Verse paging, request validation and status mapping of `music-library`.

A shallow embedding of the song service of `music-library`
(`internal/repository`, `internal/service`, `internal/handlers`).

* A Go `string` is a Lean `String`, read as its sequence of characters
  (`String.data`).  The texts handled here come out of JSON decoding or a
  UTF-8 database column, and the only separator searched for is ASCII.
* A Go `int` is an `Int`; every arithmetic operation of the source is followed
  by `wrapInt`, the two's-complement reduction to 64 bits.
* A Go `(T, error)` result is an `Outcome T`; an error value is represented by
  its message, and a run-time panic is an outcome of its own.
* The database handle, the HTTP client, the JSON decoder and the clock are the
  fields of `Env`.  Each answer may depend on the whole history of events, so
  that every concrete run of the program is the run under some `Env`.
* Effects are recorded in a trace (`List Event`) threaded through the calls.
-/

namespace MusicLibrary

/-! ## Go library functions used by the source -/

/-- Largest value of Go's `int` on a 64-bit platform. -/
def maxInt : Int := 9223372036854775807

/-- Smallest value of Go's `int` on a 64-bit platform. -/
def minInt : Int := -9223372036854775808

/-- Two's-complement reduction of a mathematical integer to a 64-bit `int`. -/
def wrapInt (x : Int) : Int := (x + 9223372036854775808) % 18446744073709551616 - 9223372036854775808

/-- Position of the first occurrence of `substr` in `s` (`strings.Index`);
`none` stands for the result `-1`. -/
def strings.IndexChars : List Char → List Char → Option Nat
  | [], substr => if substr.isPrefixOf [] then some 0 else none
  | c :: cs, substr =>
    if substr.isPrefixOf (c :: cs) then some 0
    else (strings.IndexChars cs substr).map Nat.succ

/-- The loop of `strings.genSplit` with `sepSave = 0`: cut at the first
occurrence of `sep`, continue after it; the first argument bounds the number
of iterations as `n` does in the source. -/
def strings.genSplitLoop (sep : List Char) : Nat → List Char → List (List Char)
  | 0, s => [s]
  | n + 1, s =>
    match strings.IndexChars s sep with
    | none => [s]
    | some m => s.take m :: strings.genSplitLoop sep n (s.drop (m + sep.length))

/-- Go's `strings.Split(s, sep)`.  An empty separator explodes the string into
its characters; otherwise the loop of `genSplit` runs, bounded by `len(s)`
iterations (the source caps `n` at `len(s)+1` and decrements it).  The bound
never cuts the loop short, and any bound of at least the number of separators,
such as the `Count(s, sep)` of the source, gives the same pieces
(`genSplitLoop_wellSplit`, `genSplitLoop_fuel`). -/
def strings.Split (s sep : String) : List String :=
  if sep.data = [] then s.data.map (fun c => String.mk [c])
  else (strings.genSplitLoop sep.data s.data.length s.data).map String.mk

/-- Concatenation of character lists with a separator between neighbours. -/
def strings.joinChars (sep : List Char) : List (List Char) → List Char
  | [] => []
  | [e] => e
  | e :: e2 :: es => e ++ sep ++ strings.joinChars sep (e2 :: es)

/-- Go's `strings.Join(elems, sep)`. -/
def strings.Join (elems : List String) (sep : String) : String :=
  String.mk (strings.joinChars sep.data (elems.map String.data))

/-- Go's `unicode.IsSpace`: the Latin-1 switch, then the `White_Space` table. -/
def unicode.IsSpace (r : Char) : Bool :=
  let n := r.toNat
  if n ≤ 0xFF then
    n = 0x09 || n = 0x0A || n = 0x0B || n = 0x0C || n = 0x0D || n = 0x20 || n = 0x85 || n = 0xA0
  else
    n = 0x1680 || (0x2000 ≤ n && n ≤ 0x200A) || n = 0x2028 || n = 0x2029 || n = 0x202F
      || n = 0x205F || n = 0x3000

/-- Go's `strings.TrimSpace`: leading, then trailing white space removed. -/
def strings.TrimSpace (s : String) : String :=
  String.mk ((s.data.dropWhile unicode.IsSpace).rdropWhile unicode.IsSpace)

/-- Value of a decimal digit character, if it is one. -/
def strconv.digitVal (c : Char) : Option Nat :=
  if 48 ≤ c.toNat ∧ c.toNat ≤ 57 then some (c.toNat - 48) else none

/-- Value of a non-empty run of decimal digits, most significant first. -/
def strconv.parseDigits : List Char → Nat → Option Nat
  | [], acc => some acc
  | c :: cs, acc =>
    match strconv.digitVal c with
    | none => none
    | some d => strconv.parseDigits cs (acc * 10 + d)

/-- Go's `strconv.Atoi`: an optional sign, at least one decimal digit, nothing
else, and a value that fits `int`; `none` stands for a non-nil error. -/
def strconv.Atoi (s : String) : Option Int :=
  let body : List Char :=
    match s.data with
    | '+' :: rest => rest
    | '-' :: rest => rest
    | l => l
  let neg : Bool := s.data.head? = some '-'
  if body = [] then none
  else
    match strconv.parseDigits body 0 with
    | none => none
    | some n =>
      let v : Int := if neg then -(n : Int) else (n : Int)
      if minInt ≤ v ∧ v ≤ maxInt then some v else none

/-- Decimal digits of `n`, least significant first, with `fuel` as bound. -/
def strconv.digitsRev : Nat → Nat → List Char
  | 0, _ => []
  | fuel + 1, n =>
    if n < 10 then [Char.ofNat (48 + n)]
    else Char.ofNat (48 + n % 10) :: strconv.digitsRev fuel (n / 10)

/-- Decimal rendering of a natural number, as `%d` prints it. -/
def strconv.Itoa (n : Nat) : String :=
  String.mk (strconv.digitsRev (n + 1) n).reverse

/-- The verb `%d` of `fmt` on an `int`. -/
def fmt.formatInt (n : Int) : String :=
  if n < 0 then "-" ++ strconv.Itoa n.natAbs else strconv.Itoa n.natAbs

/-- Go's `appendInt(b, x, width)` of package `time` for `x ≥ 0`: decimal,
zero-padded on the left to at least `width` digits. -/
def time.appendInt (x width : Nat) : String :=
  let d := strconv.Itoa x
  String.mk (List.replicate (width - d.data.length) '0') ++ d

/-- The calendar date of a `time.Time`. -/
structure time.Time where
  year : Nat
  month : Nat
  day : Nat
deriving DecidableEq, Repr

/-- Go's `t.Format("02.01.2006")`: two-digit day, two-digit month, four-digit
year, separated by dots. -/
def time.Time.Format (t : time.Time) : String :=
  time.appendInt t.day 2 ++ "." ++ time.appendInt t.month 2 ++ "." ++ time.appendInt t.year 4

/-! ## Data model (`internal/models/song.go`) -/

/-- The record `models.Song`. -/
structure Song where
  ID : Int
  Group : String
  SongName : String
  ReleaseDate : String
  Text : String
  Link : String
deriving DecidableEq, Repr

/-- The record `models.CreateSongRequest`; both fields carry the tag
`binding:"required"`. -/
structure CreateSongRequest where
  Group : String
  Song : String
deriving DecidableEq, Repr

/-! ## Results, effects and the environment -/

/-- Result of a Go call of type `(T, error)`: a value, an error (by its
message), or a run-time panic. -/
inductive Outcome (α : Type) where
  | ok (val : α)
  | err (msg : String)
  | panicked (msg : String)
deriving DecidableEq, Repr

/-- The outcome is a non-nil error. -/
def Outcome.isErr {α : Type} : Outcome α → Bool
  | Outcome.err _ => true
  | _ => false

/-- A positional argument of an SQL statement. -/
inductive SqlArg where
  | int (n : Int)
  | str (s : String)
deriving DecidableEq, Repr

/-- Observable effects: entries into the storage gateway and the enrichment
client (with their arguments), and the statements and requests they issue. -/
inductive Event where
  | repoGetSongs (group : String) (page limit : Int)
  | repoCreateSong (song : Song)
  | repoUpdateSong (song : Song)
  | repoDeleteSong (songID : Int)
  | repoGetSongText (songID page limit : Int)
  | apiGetSongDetails (group song : String)
  | dbQuery (query : String) (args : List SqlArg)
  | dbQueryRow (query : String) (args : List SqlArg)
  | dbExec (query : String) (args : List SqlArg)
  | httpGet (url : String)
deriving DecidableEq, Repr

/-- What `client.Do` hands back: the status code and the result of reading the
body. -/
structure HttpResponse where
  StatusCode : Int
  Body : Except String String

/-- The collaborators outside the repository.  The first argument of a
stateful collaborator is the trace of events that precede the call. -/
structure Env where
  /-- The method `db.Query`: an error, or rows each of which scans or fails to. -/
  dbQuery : List Event → String → List SqlArg → Except String (List (Except String Song))
  /-- The call `db.QueryRow(..).Scan(&id)` into an `int`. -/
  dbQueryRowInt : List Event → String → List SqlArg → Except String Int
  /-- The call `db.QueryRow(..).Scan(&text)` into a `string`. -/
  dbQueryRowString : List Event → String → List SqlArg → Except String String
  /-- The method `db.Exec`, then `RowsAffected` on its result. -/
  dbExec : List Event → String → List SqlArg → Except String (Except String Int)
  /-- The call `http.NewRequest("GET", url, nil)`: `some msg` is an error. -/
  httpNewRequest : String → Option String
  /-- The method `client.Do` on a GET request for the URL. -/
  httpDo : List Event → String → Except String HttpResponse
  /-- The call `json.Unmarshal(body, &songDetails)`. -/
  jsonUnmarshalSong : String → Except String Song
  /-- The clock behind `time.Now()`. -/
  now : List Event → time.Time
  /-- The field `baseURL` of the enrichment client. -/
  baseURL : String

/-! ## Storage gateway (`internal/repository/song_repository.go`) -/

/-- The loop `for rows.Next()` with its `rows.Scan`. -/
def SongRepository.scanRows : List (Except String Song) → List Song → Outcome (List Song)
  | [], songs => Outcome.ok songs
  | Except.error e :: _, _ => Outcome.err e
  | Except.ok song :: rest, songs => SongRepository.scanRows rest (songs ++ [song])

/-- The base statement of `GetSongs`. -/
def SongRepository.getSongsQuery : String :=
  "SELECT id, \"group\", song_name, release_date, text, link \n              FROM songs \n              WHERE 1=1"

/-- The statement and the arguments built by `GetSongs` before `db.Query`:
the optional filter on the group, then `LIMIT` and `OFFSET` with the offset
`(page-1)*limit`. -/
def SongRepository.buildGetSongs (group : String) (page limit : Int) : String × List SqlArg :=
  let query := SongRepository.getSongsQuery
  let args0 : List SqlArg := []
  let conditions0 : List String := []
  let conditions :=
    if group ≠ "" then conditions0 ++ ["group ILIKE $" ++ strconv.Itoa (args0.length + 1)]
    else conditions0
  let args1 := if group ≠ "" then args0 ++ [SqlArg.str ("%" ++ group ++ "%")] else args0
  let query1 :=
    if conditions.length > 0 then query ++ " AND " ++ strings.Join conditions " AND " else query
  let query2 := query1 ++ " LIMIT $" ++ strconv.Itoa (args1.length + 1)
  let args2 := args1 ++ [SqlArg.int limit]
  let query3 := query2 ++ " OFFSET $" ++ strconv.Itoa (args2.length + 1)
  let args3 := args2 ++ [SqlArg.int (wrapInt (wrapInt (page - 1) * limit))]
  (query3, args3)

/-- The method `SongRepository.GetSongs`. -/
def SongRepository.GetSongs (env : Env) (group : String) (page limit : Int) (tr : List Event) :
    Outcome (List Song) × List Event :=
  let tr1 := tr ++ [Event.repoGetSongs group page limit]
  let query := (SongRepository.buildGetSongs group page limit).1
  let args := (SongRepository.buildGetSongs group page limit).2
  match env.dbQuery tr1 query args with
  | Except.error e => (Outcome.err e, tr1 ++ [Event.dbQuery query args])
  | Except.ok rows => (SongRepository.scanRows rows [], tr1 ++ [Event.dbQuery query args])

/-- The statement of `CreateSong`. -/
def SongRepository.createSongQuery : String :=
  "\n\t\tINSERT INTO songs (group, song_name, release_date, text, link)\n\t\tVALUES ($1, $2, $3, $4, $5)\n\t\tRETURNING id\n\t"

/-- The method `SongRepository.CreateSong`: the identifier scanned from the row is
written into the song, which is returned. -/
def SongRepository.CreateSong (env : Env) (song : Song) (tr : List Event) :
    Outcome Song × List Event :=
  let tr1 := tr ++ [Event.repoCreateSong song]
  let args := [SqlArg.str song.Group, SqlArg.str song.SongName, SqlArg.str song.ReleaseDate,
    SqlArg.str song.Text, SqlArg.str song.Link]
  match env.dbQueryRowInt tr1 SongRepository.createSongQuery args with
  | Except.error e => (Outcome.err e, tr1 ++ [Event.dbQueryRow SongRepository.createSongQuery args])
  | Except.ok id =>
    (Outcome.ok { song with ID := id },
      tr1 ++ [Event.dbQueryRow SongRepository.createSongQuery args])

/-- The statement of `UpdateSong`. -/
def SongRepository.updateSongQuery : String :=
  "\n\t\tUPDATE songs \n\t\tSET group = $1, song_name = $2, \n\t\t    release_date = $3, text = $4, link = $5\n\t\tWHERE id = $6\n\t"

/-- The method `SongRepository.UpdateSong`. -/
def SongRepository.UpdateSong (env : Env) (song : Song) (tr : List Event) :
    Outcome Unit × List Event :=
  let tr1 := tr ++ [Event.repoUpdateSong song]
  let args := [SqlArg.str song.Group, SqlArg.str song.SongName, SqlArg.str song.ReleaseDate,
    SqlArg.str song.Text, SqlArg.str song.Link, SqlArg.int song.ID]
  let tr2 := tr1 ++ [Event.dbExec SongRepository.updateSongQuery args]
  match env.dbExec tr1 SongRepository.updateSongQuery args with
  | Except.error e => (Outcome.err e, tr2)
  | Except.ok (Except.error e) => (Outcome.err e, tr2)
  | Except.ok (Except.ok rowsAffected) =>
    if rowsAffected = 0 then (Outcome.err "no song found with the given ID", tr2)
    else (Outcome.ok (), tr2)

/-- The statement of `DeleteSong`. -/
def SongRepository.deleteSongQuery : String := "DELETE FROM songs WHERE id = $1"

/-- The method `SongRepository.DeleteSong`. -/
def SongRepository.DeleteSong (env : Env) (songID : Int) (tr : List Event) :
    Outcome Unit × List Event :=
  let tr1 := tr ++ [Event.repoDeleteSong songID]
  let args := [SqlArg.int songID]
  let tr2 := tr1 ++ [Event.dbExec SongRepository.deleteSongQuery args]
  match env.dbExec tr1 SongRepository.deleteSongQuery args with
  | Except.error e => (Outcome.err e, tr2)
  | Except.ok (Except.error e) => (Outcome.err e, tr2)
  | Except.ok (Except.ok rowsAffected) =>
    if rowsAffected = 0 then (Outcome.err "no song found with the given ID", tr2)
    else (Outcome.ok (), tr2)

/-- The statement of `GetSongText`. -/
def SongRepository.getSongTextQuery : String :=
  "\n\t\tSELECT text \n\t\tFROM songs \n\t\tWHERE id = $1\n\t"

/-- The slice expression `verses[start:end]` on a slice whose capacity is its
length: the elements from `start` up to `end`, or `none` (a panic) unless
`0 ≤ start ≤ end ≤ len(verses)`. -/
def sliceOf (verses : List String) (start end_ : Int) : Option (List String) :=
  if 0 ≤ start ∧ start ≤ end_ ∧ end_ ≤ (verses.length : Int) then
    some ((verses.drop start.toNat).take (end_.toNat - start.toNat))
  else none

/-- The part of `GetSongText` after the text is fetched: split into verses,
compute the window, check the range, clamp, slice and join. -/
def SongRepository.pageOfText (fullText : String) (page limit : Int) : Outcome String :=
  let verses := strings.Split fullText "\n\n"
  let start := wrapInt (wrapInt (page - 1) * limit)
  let end_ := wrapInt (start + limit)
  if start ≥ (verses.length : Int) then Outcome.err "page out of range"
  else
    let end_ := if end_ > (verses.length : Int) then (verses.length : Int) else end_
    match sliceOf verses start end_ with
    | some vs => Outcome.ok (strings.Join vs "\n\n")
    | none => Outcome.panicked "slice bounds out of range"

/-- The method `SongRepository.GetSongText`. -/
def SongRepository.GetSongText (env : Env) (songID page limit : Int) (tr : List Event) :
    Outcome String × List Event :=
  let tr1 := tr ++ [Event.repoGetSongText songID page limit]
  let args := [SqlArg.int songID]
  let tr2 := tr1 ++ [Event.dbQueryRow SongRepository.getSongTextQuery args]
  match env.dbQueryRowString tr1 SongRepository.getSongTextQuery args with
  | Except.error e => (Outcome.err e, tr2)
  | Except.ok fullText => (SongRepository.pageOfText fullText page limit, tr2)

/-! ## Enrichment client (`internal/service/external_api_service.go`) -/

/-- The method `ExternalAPIService.GetSongDetails`: one GET on
`baseURL/info?group=..&song=..`, status check, body read, JSON decoding. -/
def ExternalAPIService.GetSongDetails (env : Env) (group song : String) (tr : List Event) :
    Outcome Song × List Event :=
  let tr1 := tr ++ [Event.apiGetSongDetails group song]
  let url := env.baseURL ++ "/info?group=" ++ group ++ "&song=" ++ song
  match env.httpNewRequest url with
  | some e => (Outcome.err e, tr1)
  | none =>
    let tr2 := tr1 ++ [Event.httpGet url]
    match env.httpDo tr1 url with
    | Except.error e => (Outcome.err e, tr2)
    | Except.ok resp =>
      if resp.StatusCode ≠ 200 then
        (Outcome.err ("external API returned status " ++ fmt.formatInt resp.StatusCode), tr2)
      else
        match resp.Body with
        | Except.error e => (Outcome.err e, tr2)
        | Except.ok body =>
          match env.jsonUnmarshalSong body with
          | Except.error e => (Outcome.err e, tr2)
          | Except.ok songDetails => (Outcome.ok songDetails, tr2)

/-! ## Domain service (`internal/service/song_service.go`) -/

/-- The method `SongService.GetSongs`. -/
def SongService.GetSongs (env : Env) (group : String) (page limit : Int) (tr : List Event) :
    Outcome (List Song) × List Event :=
  let page := if page < 1 then 1 else page
  let limit := if limit < 1 ∨ limit > 100 then 10 else limit
  match SongRepository.GetSongs env group page limit tr with
  | (Outcome.err e, tr1) => (Outcome.err ("failed to retrieve songs: " ++ e), tr1)
  | (Outcome.panicked m, tr1) => (Outcome.panicked m, tr1)
  | (Outcome.ok songs, tr1) => (Outcome.ok songs, tr1)

/-- The method `SongService.CreateSong`. -/
def SongService.CreateSong (env : Env) (req : CreateSongRequest) (tr : List Event) :
    Outcome Song × List Event :=
  let group := strings.TrimSpace req.Group
  let songName := strings.TrimSpace req.Song
  if group = "" ∨ songName = "" then (Outcome.err "group and song name cannot be empty", tr)
  else
    match ExternalAPIService.GetSongDetails env group songName tr with
    | (Outcome.err e, tr1) => (Outcome.err ("failed to fetch song details: " ++ e), tr1)
    | (Outcome.panicked m, tr1) => (Outcome.panicked m, tr1)
    | (Outcome.ok songDetails, tr1) =>
      let releaseDate :=
        if songDetails.ReleaseDate = "" then (env.now tr1).Format else songDetails.ReleaseDate
      let song : Song :=
        { ID := 0, Group := group, SongName := songName, ReleaseDate := releaseDate,
          Text := songDetails.Text, Link := songDetails.Link }
      match SongRepository.CreateSong env song tr1 with
      | (Outcome.err e, tr2) => (Outcome.err ("failed to create song: " ++ e), tr2)
      | (Outcome.panicked m, tr2) => (Outcome.panicked m, tr2)
      | (Outcome.ok createdSong, tr2) => (Outcome.ok createdSong, tr2)

/-- The method `SongService.UpdateSong`. -/
def SongService.UpdateSong (env : Env) (songID : Int) (updateData : Song) (tr : List Event) :
    Outcome Unit × List Event :=
  if songID ≤ 0 then (Outcome.err "invalid song ID", tr)
  else
    let updateData := { updateData with ID := songID }
    let updateData := { updateData with Group := strings.TrimSpace updateData.Group }
    let updateData := { updateData with SongName := strings.TrimSpace updateData.SongName }
    if updateData.Group = "" ∨ updateData.SongName = "" then
      (Outcome.err "group and song name cannot be empty", tr)
    else
      let updateData :=
        if updateData.ReleaseDate = "" then { updateData with ReleaseDate := (env.now tr).Format }
        else updateData
      match SongRepository.UpdateSong env updateData tr with
      | (Outcome.err e, tr1) => (Outcome.err ("failed to update song: " ++ e), tr1)
      | (Outcome.panicked m, tr1) => (Outcome.panicked m, tr1)
      | (Outcome.ok (), tr1) => (Outcome.ok (), tr1)

/-- The method `SongService.DeleteSong`. -/
def SongService.DeleteSong (env : Env) (songID : Int) (tr : List Event) :
    Outcome Unit × List Event :=
  if songID ≤ 0 then (Outcome.err "invalid song ID", tr)
  else
    match SongRepository.DeleteSong env songID tr with
    | (Outcome.err e, tr1) => (Outcome.err ("failed to delete song: " ++ e), tr1)
    | (Outcome.panicked m, tr1) => (Outcome.panicked m, tr1)
    | (Outcome.ok (), tr1) => (Outcome.ok (), tr1)

/-- The method `SongService.GetSongText`. -/
def SongService.GetSongText (env : Env) (songID page limit : Int) (tr : List Event) :
    Outcome String × List Event :=
  if songID ≤ 0 then (Outcome.err "invalid song ID", tr)
  else
    let page := if page < 1 then 1 else page
    let limit := if limit < 1 ∨ limit > 10 then 3 else limit
    match SongRepository.GetSongText env songID page limit tr with
    | (Outcome.err e, tr1) => (Outcome.err ("failed to retrieve song text: " ++ e), tr1)
    | (Outcome.panicked m, tr1) => (Outcome.panicked m, tr1)
    | (Outcome.ok songText, tr1) => (Outcome.ok songText, tr1)

/-- The two messages with which the service rejects invalid input. -/
def isValidationError (msg : String) : Prop :=
  msg = "invalid song ID" ∨ msg = "group and song name cannot be empty"

instance (msg : String) : Decidable (isValidationError msg) := by
  unfold isValidationError; infer_instance

/-! ## HTTP handlers (`internal/handlers/song_handler.go`) -/

/-- The JSON value written by a handler. -/
inductive ResponseBody where
  | error (error : String) (details : Option String)
  | songs (songs : List Song)
  | song (song : Song)
  | message (message : String) (song_id : Int)
  | text (song_id page : Int) (text : String)
deriving DecidableEq, Repr

/-- The reply written with `c.JSON(status, body)`. -/
structure Response where
  status : Nat
  body : ResponseBody
deriving DecidableEq, Repr

/-- What a handler reads from `*gin.Context`: the query string, the path
parameters, and the request body as decoded by `encoding/json` into the two
record types that handlers bind. -/
structure Context where
  /-- The method `c.GetQuery`: the value of a query key if present. -/
  GetQuery : String → Option String
  /-- The method `c.Param`: the value of a path parameter. -/
  Param : String → String
  /-- The body decoded into `models.CreateSongRequest`. -/
  decodeCreateSongRequest : Except String CreateSongRequest
  /-- The body decoded into `models.Song`. -/
  decodeSong : Except String Song

/-- The method `c.Query(key)`: the value, or the empty string. -/
def Context.Query (c : Context) (key : String) : String := (c.GetQuery key).getD ""

/-- The method `c.DefaultQuery(key, defaultValue)`. -/
def Context.DefaultQuery (c : Context) (key defaultValue : String) : String :=
  (c.GetQuery key).getD defaultValue

/-- The message of the validator for a field that fails `required`. -/
def requiredError (field : String) : String :=
  "Key: 'CreateSongRequest." ++ field ++ "' Error:Field validation for '" ++ field
    ++ "' failed on the 'required' tag"

/-- The call `c.ShouldBindJSON(&req)` for `models.CreateSongRequest`: decoding,
then the `binding:"required"` tags, which reject an empty string. -/
def Context.ShouldBindCreateSongRequest (c : Context) : Except String CreateSongRequest :=
  match c.decodeCreateSongRequest with
  | Except.error e => Except.error e
  | Except.ok req =>
    if req.Group = "" ∧ req.Song = "" then
      Except.error (requiredError "Group" ++ "\n" ++ requiredError "Song")
    else if req.Group = "" then Except.error (requiredError "Group")
    else if req.Song = "" then Except.error (requiredError "Song")
    else Except.ok req

/-- The call `c.ShouldBindJSON(&updateData)` for `models.Song`, which has no
binding tags. -/
def Context.ShouldBindSong (c : Context) : Except String Song := c.decodeSong

/-- Lift of a service outcome to the reply of a handler: an error becomes the
reply built by `onErr`, a panic stays a panic. -/
def respond {α : Type} (r : Outcome α × List Event) (onErr : String → Response)
    (onOk : α → Response) : Outcome Response × List Event :=
  match r with
  | (Outcome.err e, tr) => (Outcome.ok (onErr e), tr)
  | (Outcome.panicked m, tr) => (Outcome.panicked m, tr)
  | (Outcome.ok v, tr) => (Outcome.ok (onOk v), tr)

/-- The handler `SongHandler.GetSongs`. -/
def SongHandler.GetSongs (env : Env) (c : Context) (tr : List Event) :
    Outcome Response × List Event :=
  let group := c.Query "group"
  let page := (strconv.Atoi (c.DefaultQuery "page" "1")).getD 1
  let limit := (strconv.Atoi (c.DefaultQuery "limit" "10")).getD 10
  respond (SongService.GetSongs env group page limit tr)
    (fun e => { status := 500, body := ResponseBody.error "Failed to retrieve songs" (some e) })
    (fun songs => { status := 200, body := ResponseBody.songs songs })

/-- The handler `SongHandler.GetSongText`. -/
def SongHandler.GetSongText (env : Env) (c : Context) (tr : List Event) :
    Outcome Response × List Event :=
  match strconv.Atoi (c.Query "song_id") with
  | none => (Outcome.ok { status := 400, body := ResponseBody.error "Invalid song ID" none }, tr)
  | some songID =>
    let page := (strconv.Atoi (c.DefaultQuery "page" "1")).getD 1
    let limit := (strconv.Atoi (c.DefaultQuery "limit" "3")).getD 3
    respond (SongService.GetSongText env songID page limit tr)
      (fun e =>
        { status := 500, body := ResponseBody.error "Failed to retrieve song text" (some e) })
      (fun songText => { status := 200, body := ResponseBody.text songID page songText })

/-- The handler `SongHandler.CreateSong`. -/
def SongHandler.CreateSong (env : Env) (c : Context) (tr : List Event) :
    Outcome Response × List Event :=
  match c.ShouldBindCreateSongRequest with
  | Except.error e =>
    (Outcome.ok { status := 400, body := ResponseBody.error "Invalid request body" (some e) }, tr)
  | Except.ok req =>
    respond (SongService.CreateSong env req tr)
      (fun e => { status := 500, body := ResponseBody.error "Failed to create song" (some e) })
      (fun song => { status := 201, body := ResponseBody.song song })

/-- The handler `SongHandler.UpdateSong`. -/
def SongHandler.UpdateSong (env : Env) (c : Context) (tr : List Event) :
    Outcome Response × List Event :=
  match strconv.Atoi (c.Param "id") with
  | none => (Outcome.ok { status := 400, body := ResponseBody.error "Invalid song ID" none }, tr)
  | some songID =>
    match c.ShouldBindSong with
    | Except.error e =>
      (Outcome.ok { status := 400, body := ResponseBody.error "Invalid request body" (some e) },
        tr)
    | Except.ok updateData =>
      respond (SongService.UpdateSong env songID updateData tr)
        (fun e => { status := 500, body := ResponseBody.error "Failed to update song" (some e) })
        (fun _ => { status := 200, body := ResponseBody.message "Song updated successfully" songID })

/-- The handler `SongHandler.DeleteSong`. -/
def SongHandler.DeleteSong (env : Env) (c : Context) (tr : List Event) :
    Outcome Response × List Event :=
  match strconv.Atoi (c.Param "id") with
  | none => (Outcome.ok { status := 400, body := ResponseBody.error "Invalid song ID" none }, tr)
  | some songID =>
    respond (SongService.DeleteSong env songID tr)
      (fun e => { status := 500, body := ResponseBody.error "Failed to delete song" (some e) })
      (fun _ => { status := 200, body := ResponseBody.message "Song deleted successfully" songID })

/-- The status code of the reply, when the handler wrote one. -/
def statusOf (r : Outcome Response × List Event) : Option Nat :=
  match r.1 with
  | Outcome.ok resp => some resp.status
  | _ => none

/-! ## Predicates used in the statements -/

/-- A list of pieces as `genSplitLoop` produces it: in every piece but the last
the first separator of `piece ++ sep` is the appended one, and the last piece
holds no separator. -/
def WellSplit (sep : List Char) : List (List Char) → Prop
  | [] => False
  | [p] => strings.IndexChars p sep = none
  | p :: q :: rest =>
    strings.IndexChars (p ++ sep) sep = some p.length ∧ WellSplit sep (q :: rest)

/-- The string neither starts nor ends with a white-space character. -/
def NoSurroundingSpace (s : String) : Prop :=
  (∀ c, s.data.head? = some c → unicode.IsSpace c = false) ∧
    (∀ c, s.data.getLast? = some c → unicode.IsSpace c = false)

/-- The songs handed to the storage gateway for writing (`CreateSong`,
`UpdateSong`), in the order of the calls. -/
def songsWritten : List Event → List Song
  | [] => []
  | Event.repoCreateSong song :: rest => song :: songsWritten rest
  | Event.repoUpdateSong song :: rest => song :: songsWritten rest
  | _ :: rest => songsWritten rest

/-! ## Test fixtures -/

/-- An environment in which the database holds one song (id 1) with the given
text, every statement touches one row, the enrichment API answers 200 with a
fixed record, and the clock shows 7 March 2024. -/
def envWithText (text releaseDate : String) : Env where
  dbQuery := fun _ _ _ => Except.ok []
  dbQueryRowInt := fun _ _ _ => Except.ok 1
  dbQueryRowString := fun _ _ _ => Except.ok text
  dbExec := fun _ _ _ => Except.ok (Except.ok 1)
  httpNewRequest := fun _ => none
  httpDo := fun _ _ => Except.ok { StatusCode := 200, Body := Except.ok "" }
  jsonUnmarshalSong := fun _ =>
    Except.ok { ID := 0, Group := "", SongName := "", ReleaseDate := releaseDate,
                Text := text, Link := "https://example.org/x" }
  now := fun _ => { year := 2024, month := 3, day := 7 }
  baseURL := "http://localhost:8081"

/-- A request context with the given path parameter `id`, query string and body. -/
def ctxWith (id : String) (query : String → Option String) (group song : String) : Context where
  GetQuery := query
  Param := fun _ => id
  decodeCreateSongRequest := Except.ok { Group := group, Song := song }
  decodeSong :=
    Except.ok { ID := 0, Group := group, SongName := song, ReleaseDate := "", Text := "",
                Link := "" }

/-- The query string `song_id=1&page=9223372036854775807&limit=2`, as
`c.GetQuery` sees it. -/
def overflowQuery (key : String) : Option String :=
  if key = "song_id" then some "1"
  else if key = "page" then some "9223372036854775807"
  else if key = "limit" then some "2"
  else none

/-! ## Lemmas on the library functions -/

theorem isPrefixOf_append_of_le (sep a r : List Char) (h : sep.length ≤ a.length) :
    sep.isPrefixOf (a ++ r) = sep.isPrefixOf a := by
  rw [Bool.eq_iff_iff]
  simp only [List.isPrefixOf_iff_prefix]
  constructor
  · intro hp
    exact List.prefix_of_prefix_length_le hp (List.prefix_append a r) h
  · intro hp
    exact hp.trans (List.prefix_append a r)

theorem IndexChars_some_bound (sep : List Char) :
    ∀ (s : List Char) (m : Nat), strings.IndexChars s sep = some m →
      m + sep.length ≤ s.length ∧ sep <+: s.drop m := by
  intro s
  induction s with
  | nil =>
    intro m h
    simp only [strings.IndexChars] at h
    split at h
    · rename_i hp
      simp only [List.isPrefixOf_iff_prefix] at hp
      have : sep = [] := List.prefix_nil.mp hp
      subst this
      simp at h
      subst h
      simp
    · simp at h
  | cons c cs ih =>
    intro m h
    simp only [strings.IndexChars] at h
    split at h
    · rename_i hp
      simp only [List.isPrefixOf_iff_prefix] at hp
      simp at h
      subst h
      exact ⟨by simpa using hp.length_le, by simpa using hp⟩
    · cases hi : strings.IndexChars cs sep with
      | none => simp [hi] at h
      | some k =>
        simp [hi] at h
        subst h
        have := ih k hi
        exact ⟨by simp; omega, by simpa using this.2⟩


theorem IndexChars_cons (c : Char) (cs sep : List Char) :
    strings.IndexChars (c :: cs) sep =
      if sep.isPrefixOf (c :: cs) then some 0 else (strings.IndexChars cs sep).map Nat.succ := by
  simp [strings.IndexChars]

theorem IndexChars_append (sep : List Char) (r : List Char) :
    ∀ (a : List Char) (i : Nat), strings.IndexChars a sep = some i →
      strings.IndexChars (a ++ r) sep = some i := by
  intro a
  induction a with
  | nil =>
    intro i h
    simp only [strings.IndexChars] at h
    split at h
    · rename_i hp
      simp only [List.isPrefixOf_iff_prefix] at hp
      have : sep = [] := List.prefix_nil.mp hp
      subst this
      simp at h
      subst h
      cases r <;> simp [strings.IndexChars]
    · simp at h
  | cons c cs ih =>
    intro i h
    have hb := IndexChars_some_bound sep (c :: cs) i h
    have hlen : sep.length ≤ (c :: cs).length := by omega
    have hpre := isPrefixOf_append_of_le sep (c :: cs) r hlen
    rw [IndexChars_cons] at h
    rw [List.cons_append] at hpre ⊢
    rw [IndexChars_cons, hpre]
    by_cases hp : sep.isPrefixOf (c :: cs) = true
    · rw [if_pos hp] at h ⊢
      exact h
    · rw [if_neg hp] at h ⊢
      cases hi : strings.IndexChars cs sep with
      | none => simp [hi] at h
      | some k =>
        simp [hi] at h
        subst h
        simp [ih k hi]

theorem IndexChars_of_append (sep : List Char) (r : List Char) :
    ∀ (a : List Char) (i : Nat), strings.IndexChars (a ++ r) sep = some i →
      i + sep.length ≤ a.length → strings.IndexChars a sep = some i := by
  intro a
  induction a with
  | nil =>
    intro i h hle
    simp at hle
    obtain ⟨rfl, hs⟩ := hle
    subst hs
    simp [strings.IndexChars]
  | cons c cs ih =>
    intro i h hle
    have hlen : sep.length ≤ (c :: cs).length := by omega
    have hpre := isPrefixOf_append_of_le sep (c :: cs) r hlen
    rw [List.cons_append] at hpre h
    rw [IndexChars_cons, hpre] at h
    rw [IndexChars_cons]
    by_cases hp : sep.isPrefixOf (c :: cs) = true
    · rw [if_pos hp] at h ⊢
      exact h
    · rw [if_neg hp] at h ⊢
      cases hi : strings.IndexChars (cs ++ r) sep with
      | none => simp [hi] at h
      | some k =>
        simp [hi] at h
        subst h
        have : k + sep.length ≤ cs.length := by simp at hle; omega
        simp [ih k hi this]

theorem IndexChars_split (sep s : List Char) (m : Nat) (h : strings.IndexChars s sep = some m) :
    s = s.take m ++ (sep ++ s.drop (m + sep.length)) := by
  obtain ⟨_, t, ht⟩ := IndexChars_some_bound sep s m h
  have h1 : s.drop (m + sep.length) = t := by
    rw [← List.drop_drop, ← ht]
    simp
  rw [h1, ht]
  exact (List.take_append_drop m s).symm

theorem joinChars_cons (sep e : List Char) (es : List (List Char)) (h : es ≠ []) :
    strings.joinChars sep (e :: es) = e ++ (sep ++ strings.joinChars sep es) := by
  cases es with
  | nil => exact absurd rfl h
  | cons e2 es => simp [strings.joinChars]

theorem genSplitLoop_ne_nil (sep : List Char) (n : Nat) (s : List Char) :
    strings.genSplitLoop sep n s ≠ [] := by
  cases n with
  | zero => simp [strings.genSplitLoop]
  | succ n =>
    simp only [strings.genSplitLoop]
    split <;> simp

theorem joinChars_genSplitLoop (sep : List Char) :
    ∀ (n : Nat) (s : List Char), strings.joinChars sep (strings.genSplitLoop sep n s) = s := by
  intro n
  induction n with
  | zero => intro s; simp [strings.genSplitLoop, strings.joinChars]
  | succ n ih =>
    intro s
    simp only [strings.genSplitLoop]
    cases hi : strings.IndexChars s sep with
    | none => simp [strings.joinChars]
    | some m =>
      simp only
      rw [joinChars_cons sep _ _ (genSplitLoop_ne_nil sep n _), ih]
      exact (IndexChars_split sep s m hi).symm

theorem genSplitLoop_length (sep : List Char) :
    ∀ (n : Nat) (s : List Char),
      (strings.genSplitLoop sep n s).length * sep.length ≤ s.length + sep.length := by
  intro n
  induction n with
  | zero => intro s; simp [strings.genSplitLoop]
  | succ n ih =>
    intro s
    simp only [strings.genSplitLoop]
    cases hi : strings.IndexChars s sep with
    | none => simp
    | some m =>
      simp only [List.length_cons]
      have hb := (IndexChars_some_bound sep s m hi).1
      have := ih (s.drop (m + sep.length))
      simp only [List.length_drop] at this
      rw [Nat.add_mul]
      omega


theorem IndexChars_nil_none (sep : List Char) (h : sep ≠ []) : strings.IndexChars [] sep = none := by
  cases sep with
  | nil => exact absurd rfl h
  | cons c cs => simp [strings.IndexChars]

theorem genSplitLoop_wellSplit (sep : List Char) (hsep : sep ≠ []) :
    ∀ (n : Nat) (s : List Char), s.length ≤ n → WellSplit sep (strings.genSplitLoop sep n s) := by
  intro n
  induction n with
  | zero =>
    intro s hs
    have : s = [] := List.length_eq_zero.mp (Nat.le_zero.mp hs)
    subst this
    simpa [strings.genSplitLoop, WellSplit] using IndexChars_nil_none sep hsep
  | succ n ih =>
    intro s hs
    simp only [strings.genSplitLoop]
    cases hi : strings.IndexChars s sep with
    | none => simpa [WellSplit] using hi
    | some m =>
      simp only
      have hb := (IndexChars_some_bound sep s m hi).1
      have hpos : 0 < sep.length := List.length_pos.mpr hsep
      have hrest : (s.drop (m + sep.length)).length ≤ n := by
        simp only [List.length_drop]; omega
      have hw := ih _ hrest
      have hne := genSplitLoop_ne_nil sep n (s.drop (m + sep.length))
      cases hg : strings.genSplitLoop sep n (s.drop (m + sep.length)) with
      | nil => exact absurd hg hne
      | cons q rest =>
        rw [hg] at hw
        refine ⟨?_, hw⟩
        have htl : (s.take m).length = m := by
          rw [List.length_take]; omega
        rw [htl]
        have hs2 := IndexChars_split sep s m hi
        rw [hs2, ← List.append_assoc] at hi
        exact IndexChars_of_append sep _ _ m hi (by simp [htl])

theorem piece_no_sep (sep p : List Char) (hsep : sep ≠ [])
    (h : strings.IndexChars (p ++ sep) sep = some p.length) : strings.IndexChars p sep = none := by
  cases hi : strings.IndexChars p sep with
  | none => rfl
  | some i =>
    have hb := (IndexChars_some_bound sep p i hi).1
    have h2 := IndexChars_append sep sep p i hi
    rw [h] at h2
    have hpos : 0 < sep.length := List.length_pos.mpr hsep
    simp at h2
    omega

theorem genSplitLoop_joinChars (sep : List Char) :
    ∀ (ps : List (List Char)) (n : Nat), WellSplit sep ps → ps.length ≤ n + 1 →
      strings.genSplitLoop sep n (strings.joinChars sep ps) = ps := by
  intro ps
  induction ps with
  | nil => intro n h; exact absurd h (by simp [WellSplit])
  | cons p rest ih =>
    intro n hw hn
    cases rest with
    | nil =>
      simp only [WellSplit] at hw
      cases n with
      | zero => simp [strings.genSplitLoop, strings.joinChars]
      | succ k => simp [strings.genSplitLoop, strings.joinChars, hw]
    | cons q rest =>
      obtain ⟨hp, hw2⟩ := hw
      cases n with
      | zero => simp at hn
      | succ k =>
        have hidx : strings.IndexChars (p ++ sep ++ strings.joinChars sep (q :: rest)) sep
            = some p.length := IndexChars_append sep _ _ _ hp
        simp only [strings.joinChars, strings.genSplitLoop, hidx]
        have h1 : List.take p.length (p ++ sep ++ strings.joinChars sep (q :: rest)) = p := by
          rw [List.append_assoc, List.take_left]
        have h2 : List.drop (p.length + sep.length)
            (p ++ sep ++ strings.joinChars sep (q :: rest)) = strings.joinChars sep (q :: rest) := by
          have : p.length + sep.length = (p ++ sep).length := by simp
          rw [this, List.drop_left]
        rw [h1, h2, ih k hw2 (by simpa using hn)]

theorem genSplitLoop_fuel (sep : List Char) (hsep : sep ≠ []) (s : List Char) (n : Nat)
    (hn : (strings.genSplitLoop sep s.length s).length ≤ n + 1) :
    strings.genSplitLoop sep n s = strings.genSplitLoop sep s.length s := by
  have hw := genSplitLoop_wellSplit sep hsep s.length s (Nat.le_refl _)
  have h := genSplitLoop_joinChars sep (strings.genSplitLoop sep s.length s) n hw hn
  rwa [joinChars_genSplitLoop] at h

theorem wellSplit_drop (sep : List Char) :
    ∀ (ps : List (List Char)) (a : Nat), WellSplit sep ps → a < ps.length →
      WellSplit sep (ps.drop a) := by
  intro ps
  induction ps with
  | nil => intro a h; exact absurd h (by simp [WellSplit])
  | cons p rest ih =>
    intro a hw ha
    cases a with
    | zero => simpa using hw
    | succ a =>
      cases rest with
      | nil => simp at ha
      | cons q rest =>
        simp only [List.drop_succ_cons]
        exact ih a hw.2 (by simpa using ha)

theorem wellSplit_take (sep : List Char) (hsep : sep ≠ []) :
    ∀ (ps : List (List Char)) (k : Nat), WellSplit sep ps → 0 < k →
      WellSplit sep (ps.take k) := by
  intro ps
  induction ps with
  | nil => intro k h; exact absurd h (by simp [WellSplit])
  | cons p rest ih =>
    intro k hw hk
    cases k with
    | zero => omega
    | succ k =>
      cases rest with
      | nil => simpa using hw
      | cons q rest =>
        cases k with
        | zero =>
          simp only [List.take_succ_cons, List.take_zero, WellSplit]
          exact piece_no_sep sep p hsep hw.1
        | succ k =>
          have := ih (k + 1) hw.2 (by omega)
          simp only [List.take_succ_cons] at this ⊢
          exact ⟨hw.1, this⟩

theorem joinChars_length (sep : List Char) (hsep : sep ≠ []) :
    ∀ (ps : List (List Char)), ps ≠ [] → ps.length ≤ (strings.joinChars sep ps).length + 1 := by
  intro ps
  induction ps with
  | nil => intro h; exact absurd rfl h
  | cons p rest ih =>
    intro _
    cases rest with
    | nil => simp
    | cons q rest =>
      have := ih (by simp)
      have hpos : 0 < sep.length := List.length_pos.mpr hsep
      simp only [strings.joinChars, List.length_append, List.length_cons] at this ⊢
      omega


theorem TrimSpace_noSurroundingSpace (s : String) : NoSurroundingSpace (strings.TrimSpace s) := by
  have hpre : (s.data.dropWhile unicode.IsSpace).rdropWhile unicode.IsSpace
      <+: s.data.dropWhile unicode.IsSpace := List.rdropWhile_prefix _ _
  constructor
  · intro c hc
    simp only [strings.TrimSpace] at hc
    have hne : (s.data.dropWhile unicode.IsSpace).rdropWhile unicode.IsSpace ≠ [] := by
      intro h; rw [h] at hc; simp at hc
    have hne2 : s.data.dropWhile unicode.IsSpace ≠ [] := by
      intro h; rw [h] at hne; simp at hne
    have hh := hpre.head hne
    have hn := List.head_dropWhile_not unicode.IsSpace s.data hne2
    rw [List.head?_eq_head hne] at hc
    simp only [Option.some.injEq] at hc
    rw [← hc, hh]
    exact hn
  · intro c hc
    simp only [strings.TrimSpace] at hc
    have hne : (s.data.dropWhile unicode.IsSpace).rdropWhile unicode.IsSpace ≠ [] := by
      intro h; rw [h] at hc; simp at hc
    have hl := List.rdropWhile_last_not (p := unicode.IsSpace)
      (l := s.data.dropWhile unicode.IsSpace) hne
    rw [List.getLast?_eq_getLast _ hne] at hc
    simp only [Option.some.injEq] at hc
    rw [← hc]
    simpa using hl

theorem wrapInt_of_range (x : Int) (h1 : minInt ≤ x) (h2 : x ≤ maxInt) : wrapInt x = x := by
  unfold minInt at h1
  unfold maxInt at h2
  unfold wrapInt
  omega

theorem wrapInt_range (x : Int) : minInt ≤ wrapInt x ∧ wrapInt x ≤ maxInt := by
  unfold minInt maxInt wrapInt
  omega

theorem sep_data : ("\n\n" : String).data = ['\n', '\n'] := rfl

theorem Split_verses (s : String) :
    strings.Split s "\n\n"
      = (strings.genSplitLoop ['\n', '\n'] s.data.length s.data).map String.mk := by
  simp [strings.Split, sep_data]

theorem Join_Split (s : String) : strings.Join (strings.Split s "\n\n") "\n\n" = s := by
  rw [Split_verses]
  simp only [strings.Join, List.map_map]
  have : (String.data ∘ String.mk) = id := by funext l; rfl
  rw [this, List.map_id]
  simp only [sep_data, joinChars_genSplitLoop]

theorem Split_length_pos (s : String) : 0 < (strings.Split s "\n\n").length := by
  rw [Split_verses, List.length_map]
  exact List.length_pos.mpr (genSplitLoop_ne_nil _ _ _)

theorem Split_length_le (s : String) : 2 * (strings.Split s "\n\n").length ≤ s.length + 2 := by
  rw [Split_verses, List.length_map]
  have := genSplitLoop_length ['\n', '\n'] s.data.length s.data
  simp only [List.length_cons, List.length_nil] at this
  simp only [String.length]
  omega

theorem Split_Join_window (s : String) (a k : Nat)
    (ha : a < (strings.Split s "\n\n").length) (hk : 0 < k) :
    strings.Split (strings.Join (((strings.Split s "\n\n").drop a).take k) "\n\n") "\n\n"
      = ((strings.Split s "\n\n").drop a).take k := by
  have hsep : (['\n', '\n'] : List Char) ≠ [] := by simp
  have hw := genSplitLoop_wellSplit ['\n', '\n'] hsep s.data.length s.data (Nat.le_refl _)
  rw [Split_verses] at ha ⊢
  rw [List.length_map] at ha
  have hw2 := wellSplit_take _ hsep _ k (wellSplit_drop _ _ a hw ha) hk
  have hne : ((strings.genSplitLoop ['\n', '\n'] s.data.length s.data).drop a).take k ≠ [] := by
    intro h; rw [h] at hw2; exact hw2
  rw [Split_verses]
  simp only [strings.Join, sep_data, ← List.map_drop, ← List.map_take, List.map_map]
  have : (String.data ∘ String.mk) = id := by funext l; rfl
  rw [this, List.map_id]
  rw [genSplitLoop_joinChars _ _ _ hw2 (joinChars_length _ hsep _ hne)]


theorem pageOfText_outOfRange (text : String) (page limit : Int)
    (hpage : 1 ≤ page) (hlimit : 1 ≤ limit) (hstart : (page - 1) * limit ≤ maxInt)
    (h : (strings.Split text "\n\n").length ≤ ((page - 1) * limit).toNat) :
    SongRepository.pageOfText text page limit = Outcome.err "page out of range" := by
  have h0 : 0 ≤ (page - 1) * limit := Int.mul_nonneg (by omega) (by omega)
  have h1 : page - 1 ≤ (page - 1) * limit := by nlinarith
  have hw1 : wrapInt (page - 1) = page - 1 :=
    wrapInt_of_range _ (by unfold minInt; omega) (by omega)
  have hw2 : wrapInt ((page - 1) * limit) = (page - 1) * limit :=
    wrapInt_of_range _ (by unfold minInt; omega) hstart
  have hge : ((strings.Split text "\n\n").length : Int) ≤ (page - 1) * limit := by omega
  simp only [SongRepository.pageOfText, hw1, hw2]
  rw [if_pos (by exact hge)]

theorem pageOfText_inRange (text : String) (page limit : Int)
    (hlen : (text.length : Int) ≤ maxInt)
    (hpage : 1 ≤ page) (hlimit : 1 ≤ limit) (hlimit2 : limit ≤ maxInt)
    (hstart : (page - 1) * limit ≤ maxInt)
    (h : ((page - 1) * limit).toNat < (strings.Split text "\n\n").length) :
    SongRepository.pageOfText text page limit =
      Outcome.ok (strings.Join
        (((strings.Split text "\n\n").drop ((page - 1) * limit).toNat).take
          (min (strings.Split text "\n\n").length (((page - 1) * limit).toNat + limit.toNat)
            - ((page - 1) * limit).toNat)) "\n\n") := by
  have h0 : 0 ≤ (page - 1) * limit := Int.mul_nonneg (by omega) (by omega)
  have h1 : page - 1 ≤ (page - 1) * limit := by nlinarith
  have hw1 : wrapInt (page - 1) = page - 1 :=
    wrapInt_of_range _ (by unfold minInt; omega) (by omega)
  have hw2 : wrapInt ((page - 1) * limit) = (page - 1) * limit :=
    wrapInt_of_range _ (by unfold minInt; omega) hstart
  have hbound := Split_length_le text
  generalize hL : (strings.Split text "\n\n").length = L at h hbound
  generalize hS : (page - 1) * limit = start at *
  have hsum : start + limit ≤ maxInt := by
    by_cases hp : page = 1
    · subst hp
      simp at hS
      omega
    · have hp2 : 1 ≤ page - 1 := by omega
      have hm := Int.mul_le_mul_of_nonneg_right hp2 (by omega : (0 : Int) ≤ limit)
      have : limit ≤ start := by rw [← hS]; simpa using hm
      omega
  have hw3 : wrapInt (start + limit) = start + limit :=
    wrapInt_of_range _ (by unfold minInt; omega) hsum
  simp only [SongRepository.pageOfText, hw1, hS, hw2, hw3, hL]
  rw [if_neg (by omega)]
  by_cases hc : start + limit > (L : Int)
  · simp only [hc, if_true, sliceOf, hL]
    rw [if_pos (by omega)]
    simp only [Int.toNat_ofNat]
    congr 3
    omega
  · simp only [hc, if_false, sliceOf, hL]
    rw [if_pos (by omega)]
    simp only
    congr 3
    omega


theorem GetSongText_of_row (env : Env) (tr : List Event) (songID page limit : Int) (text : String)
    (hrow : env.dbQueryRowString (tr ++ [Event.repoGetSongText songID page limit])
      SongRepository.getSongTextQuery [SqlArg.int songID] = Except.ok text) :
    SongRepository.GetSongText env songID page limit tr =
      (SongRepository.pageOfText text page limit,
        tr ++ [Event.repoGetSongText songID page limit] ++
          [Event.dbQueryRow SongRepository.getSongTextQuery [SqlArg.int songID]]) := by
  simp only [SongRepository.GetSongText, hrow]

theorem pageOfText_full (s : String) (limit : Int)
    (hlimit : ((strings.Split s "\n\n").length : Int) ≤ limit) (hlimit2 : limit ≤ maxInt) :
    SongRepository.pageOfText s 1 limit = Outcome.ok s := by
  have hpos := Split_length_pos s
  have hw0 : wrapInt 0 = 0 := by decide
  have hw3 : wrapInt limit = limit := wrapInt_of_range _ (by unfold minInt; omega) hlimit2
  have hjoin := Join_Split s
  generalize hV : strings.Split s "\n\n" = verses at *
  simp only [SongRepository.pageOfText, hV, sub_self, hw0, zero_mul, zero_add, hw3]
  rw [if_neg (by omega)]
  by_cases hc : limit > (verses.length : Int)
  · simp only [hc, if_true, sliceOf]
    rw [if_pos (by omega)]
    simp [hjoin]
  · simp only [hc, if_false, sliceOf]
    rw [if_pos (by omega)]
    have : limit.toNat - (0 : Int).toNat = verses.length := by
      simp only [Int.toNat_zero]; omega
    simp only [this]
    simp [hjoin]

/-- C1. Verse paging in the repository method `GetSongText`: for a stored text
(of at most `maxInt` characters, as every Go string), `page ≥ 1` and
`limit ≥ 1` with `(page-1)*limit` not overflowing, let `verses` be the text
split on the blank line, `start = (page-1)*limit` and
`end = min(len(verses), start+limit)`.  The call fails with "page out of range"
exactly when `start ≥ len(verses)`; otherwise it returns `verses[start..end)`
joined with the blank line.  Every page number above the number of verses
fails, and for the text "A\n\nB\n\nC" with limit 1 the pages 1, 2, 3 are "A",
"B", "C" and page 4 fails. -/
theorem GetSongText_verse_paging (env : Env) (tr : List Event) (songID page limit : Int)
    (text : String)
    (hrow : env.dbQueryRowString (tr ++ [Event.repoGetSongText songID page limit])
      SongRepository.getSongTextQuery [SqlArg.int songID] = Except.ok text)
    (hlen : (text.length : Int) ≤ maxInt)
    (hpage : 1 ≤ page) (hlimit : 1 ≤ limit) (hlimit2 : limit ≤ maxInt)
    (hstart : (page - 1) * limit ≤ maxInt) :
    ((SongRepository.GetSongText env songID page limit tr).1 = Outcome.err "page out of range" ↔
      (strings.Split text "\n\n").length ≤ ((page - 1) * limit).toNat) ∧
    (((page - 1) * limit).toNat < (strings.Split text "\n\n").length →
      (SongRepository.GetSongText env songID page limit tr).1 =
        Outcome.ok (strings.Join
          (((strings.Split text "\n\n").drop ((page - 1) * limit).toNat).take
            (min (strings.Split text "\n\n").length (((page - 1) * limit).toNat + limit.toNat)
              - ((page - 1) * limit).toNat)) "\n\n")) ∧
    (((strings.Split text "\n\n").length : Int) < page →
      (SongRepository.GetSongText env songID page limit tr).1 = Outcome.err "page out of range") ∧
    (text = "A\n\nB\n\nC" → limit = 1 →
      (page = 1 → (SongRepository.GetSongText env songID page limit tr).1 = Outcome.ok "A") ∧
      (page = 2 → (SongRepository.GetSongText env songID page limit tr).1 = Outcome.ok "B") ∧
      (page = 3 → (SongRepository.GetSongText env songID page limit tr).1 = Outcome.ok "C") ∧
      (page = 4 →
        (SongRepository.GetSongText env songID page limit tr).1
          = Outcome.err "page out of range")) := by
  rw [GetSongText_of_row env tr songID page limit text hrow]
  simp only
  refine ⟨⟨?_, ?_⟩, ?_, ?_, ?_⟩
  · intro herr
    by_contra hlt
    rw [pageOfText_inRange text page limit hlen hpage hlimit hlimit2 hstart (by omega)] at herr
    exact absurd herr (by simp)
  · exact pageOfText_outOfRange text page limit hpage hlimit hstart
  · exact pageOfText_inRange text page limit hlen hpage hlimit hlimit2 hstart
  · intro hgt
    apply pageOfText_outOfRange text page limit hpage hlimit hstart
    have h1 : page - 1 ≤ (page - 1) * limit := by nlinarith
    omega
  · intro ht hl
    subst ht
    subst hl
    refine ⟨?_, ?_, ?_, ?_⟩ <;> intro hp <;> subst hp <;> decide

/-- Witness of C1: the text "A\n\nB\n\nC" stored under id 1, page 2, limit 1. -/
theorem GetSongText_verse_paging_witness :
    ((envWithText "A\n\nB\n\nC" "").dbQueryRowString ([] ++ [Event.repoGetSongText 1 2 1])
        SongRepository.getSongTextQuery [SqlArg.int 1] = Except.ok "A\n\nB\n\nC" ∧
      (("A\n\nB\n\nC" : String).length : Int) ≤ maxInt ∧ (1 : Int) ≤ 2 ∧ (1 : Int) ≤ 1 ∧
      (1 : Int) ≤ maxInt ∧ ((2 : Int) - 1) * 1 ≤ maxInt) ∧
    (SongRepository.GetSongText (envWithText "A\n\nB\n\nC" "") 1 2 1 []).1 = Outcome.ok "B" ∧
    ((SongRepository.GetSongText (envWithText "A\n\nB\n\nC" "") 1 2 1 []).1
        = Outcome.err "page out of range" ↔
      (strings.Split "A\n\nB\n\nC" "\n\n").length ≤ (((2 : Int) - 1) * 1).toNat) :=
  have h := GetSongText_verse_paging (envWithText "A\n\nB\n\nC" "") [] 1 2 1 "A\n\nB\n\nC" rfl
    (by decide) (by decide) (by decide) (by decide) (by decide)
  ⟨⟨rfl, by decide, by decide, by decide, by decide, by decide⟩, (h.2.2.2 rfl rfl).2.1 rfl, h.1⟩

/-- C2. Round trip of verse paging: for a text with no leading and no trailing
blank-line separator, splitting on the separator and joining all verses with
it gives the text back; hence the repository method `GetSongText` with page 1
and a limit of at least the number of verses returns the stored text
unchanged. -/
theorem GetSongText_roundtrip (s : String)
    (hlead : ("\n\n" : String).data.isPrefixOf s.data = false)
    (htrail : ("\n\n" : String).data.isSuffixOf s.data = false) :
    strings.Join (strings.Split s "\n\n") "\n\n" = s ∧
    ∀ (env : Env) (tr : List Event) (songID limit : Int),
      env.dbQueryRowString (tr ++ [Event.repoGetSongText songID 1 limit])
        SongRepository.getSongTextQuery [SqlArg.int songID] = Except.ok s →
      ((strings.Split s "\n\n").length : Int) ≤ limit → limit ≤ maxInt →
      (SongRepository.GetSongText env songID 1 limit tr).1 = Outcome.ok s := by
  refine ⟨Join_Split s, ?_⟩
  intro env tr songID limit hrow h1 h2
  rw [GetSongText_of_row env tr songID 1 limit s hrow]
  exact pageOfText_full s limit h1 h2

/-- Witness of C2: the text "A\n\nB\n\nC" read back with page 1 and limit 3. -/
theorem GetSongText_roundtrip_witness :
    (("\n\n" : String).data.isPrefixOf ("A\n\nB\n\nC" : String).data = false ∧
      ("\n\n" : String).data.isSuffixOf ("A\n\nB\n\nC" : String).data = false) ∧
    strings.Join (strings.Split "A\n\nB\n\nC" "\n\n") "\n\n" = "A\n\nB\n\nC" ∧
    (SongRepository.GetSongText (envWithText "A\n\nB\n\nC" "") 1 1 3 []).1
      = Outcome.ok "A\n\nB\n\nC" :=
  have h := GetSongText_roundtrip "A\n\nB\n\nC" (by decide) (by decide)
  ⟨⟨by decide, by decide⟩, h.1,
    h.2 (envWithText "A\n\nB\n\nC" "") [] 1 3 rfl (by decide) (by decide)⟩


theorem pageOfText_ok_length (fullText text : String) (page limit : Int)
    (hl1 : 1 ≤ limit) (hl2 : limit ≤ 10)
    (h : SongRepository.pageOfText fullText page limit = Outcome.ok text) :
    ((strings.Split text "\n\n").length : Int) ≤ limit := by
  have hr := wrapInt_range (wrapInt (page - 1) * limit)
  generalize hS : wrapInt (wrapInt (page - 1) * limit) = start at *
  have hwe : wrapInt (start + limit) = start + limit ∨ wrapInt (start + limit) < 0 := by
    unfold minInt maxInt at hr
    unfold wrapInt
    omega
  generalize hE : wrapInt (start + limit) = e0 at hwe
  simp only [SongRepository.pageOfText, hS, hE] at h
  generalize hV : strings.Split fullText "\n\n" = verses at h
  by_cases hge : start ≥ (verses.length : Int)
  · rw [if_pos hge] at h
    exact absurd h (by simp)
  · rw [if_neg hge] at h
    generalize hEnd : (if e0 > (verses.length : Int) then (verses.length : Int) else e0) = e at h
    unfold sliceOf at h
    by_cases hb : 0 ≤ start ∧ start ≤ e ∧ e ≤ (verses.length : Int)
    · rw [if_pos hb] at h
      simp only [Outcome.ok.injEq] at h
      have hk : 0 < e.toNat - start.toNat ∧ ((e.toNat - start.toNat : Nat) : Int) ≤ limit := by
        by_cases hc : e0 > (verses.length : Int)
        · rw [if_pos hc] at hEnd
          omega
        · rw [if_neg hc] at hEnd
          omega
      have ha : start.toNat < (strings.Split fullText "\n\n").length := by
        rw [hV]; omega
      have hwin := Split_Join_window fullText start.toNat (e.toNat - start.toNat) ha hk.1
      rw [hV, h] at hwin
      rw [hwin, List.length_take]
      omega
    · rw [if_neg hb] at h
      exact absurd h (by simp)


theorem statusOf_respond_err {α : Type} (r : Outcome α × List Event) (msg : String)
    (body : ResponseBody) (onErr : String → Response) (onOk : α → Response)
    (h : r.1 = Outcome.err msg) (hs : onErr msg = { status := 500, body := body }) :
    statusOf (respond r onErr onOk) = some 500 := by
  obtain ⟨o, t⟩ := r
  simp only at h
  subst h
  simp [respond, statusOf, hs]

theorem statusOf_respond_ne {α : Type} (r : Outcome α × List Event) (n : Nat)
    (onErr : String → Response) (onOk : α → Response)
    (h1 : ∀ e, (onErr e).status ≠ n) (h2 : ∀ v, (onOk v).status ≠ n) :
    statusOf (respond r onErr onOk) ≠ some n := by
  obtain ⟨o, t⟩ := r
  cases o with
  | ok v => simpa [respond, statusOf] using h2 v
  | err e => simpa [respond, statusOf] using h1 e
  | panicked m => simp [respond, statusOf]

/-- Counterexample to C3: a DELETE request whose path id is "-1".  The id parses to `-1`, the
service rejects it with the validation error "invalid song ID", and the
handler answers with status 500, not 400. -/
theorem handler_validation_status_counterexample :
    strconv.Atoi ((ctxWith "-1" (fun _ => none) "g" "s").Param "id") = some (-1) ∧
    (SongService.DeleteSong (envWithText "A" "") (-1) []).1 = Outcome.err "invalid song ID" ∧
    isValidationError "invalid song ID" ∧
    statusOf (SongHandler.DeleteSong (envWithText "A" "") (ctxWith "-1" (fun _ => none) "g" "s") [])
      = some 500 ∧
    statusOf (SongHandler.DeleteSong (envWithText "A" "") (ctxWith "-1" (fun _ => none) "g" "s") [])
      ≠ some 400 := by
  decide

/-- C3, amended. In each of the handlers `CreateSong`, `UpdateSong`,
`DeleteSong` and `GetSongText`, every error returned by the domain service,
a validation error included, is answered with status 500; status 400 is
answered exactly when the handler itself fails to parse the id or to bind the
request body. -/
theorem handler_status_mapping (env : Env) (c : Context) (tr : List Event) :
    (∀ songID msg, strconv.Atoi (c.Param "id") = some songID →
      (SongService.DeleteSong env songID tr).1 = Outcome.err msg →
      statusOf (SongHandler.DeleteSong env c tr) = some 500) ∧
    (statusOf (SongHandler.DeleteSong env c tr) = some 400 ↔ strconv.Atoi (c.Param "id") = none) ∧
    (∀ songID updateData msg, strconv.Atoi (c.Param "id") = some songID →
      c.ShouldBindSong = Except.ok updateData →
      (SongService.UpdateSong env songID updateData tr).1 = Outcome.err msg →
      statusOf (SongHandler.UpdateSong env c tr) = some 500) ∧
    (statusOf (SongHandler.UpdateSong env c tr) = some 400 ↔
      (strconv.Atoi (c.Param "id") = none ∨ ∃ e, c.ShouldBindSong = Except.error e)) ∧
    (∀ req msg, c.ShouldBindCreateSongRequest = Except.ok req →
      (SongService.CreateSong env req tr).1 = Outcome.err msg →
      statusOf (SongHandler.CreateSong env c tr) = some 500) ∧
    (statusOf (SongHandler.CreateSong env c tr) = some 400 ↔
      ∃ e, c.ShouldBindCreateSongRequest = Except.error e) ∧
    (∀ songID msg, strconv.Atoi (c.Query "song_id") = some songID →
      (SongService.GetSongText env songID ((strconv.Atoi (c.DefaultQuery "page" "1")).getD 1)
        ((strconv.Atoi (c.DefaultQuery "limit" "3")).getD 3) tr).1 = Outcome.err msg →
      statusOf (SongHandler.GetSongText env c tr) = some 500) ∧
    (statusOf (SongHandler.GetSongText env c tr) = some 400 ↔
      strconv.Atoi (c.Query "song_id") = none) := by
  refine ⟨?_, ?_, ?_, ?_, ?_, ?_, ?_, ?_⟩
  · intro songID msg hid herr
    simp only [SongHandler.DeleteSong, hid]
    exact statusOf_respond_err _ msg _ _ _ herr rfl
  · cases hid : strconv.Atoi (c.Param "id") with
    | none => simp [SongHandler.DeleteSong, hid, statusOf]
    | some songID =>
      simp only [SongHandler.DeleteSong, hid]
      simpa using statusOf_respond_ne _ 400 _ _ (by intro e; simp) (by intro v; simp)
  · intro songID updateData msg hid hbind herr
    simp only [SongHandler.UpdateSong, hid, hbind]
    exact statusOf_respond_err _ msg _ _ _ herr rfl
  · cases hid : strconv.Atoi (c.Param "id") with
    | none => simp [SongHandler.UpdateSong, hid, statusOf]
    | some songID =>
      cases hbind : c.ShouldBindSong with
      | error e => simp [SongHandler.UpdateSong, hid, hbind, statusOf]
      | ok updateData =>
        simp only [SongHandler.UpdateSong, hid, hbind]
        simpa using statusOf_respond_ne _ 400 _ _ (by intro e; simp) (by intro v; simp)
  · intro req msg hbind herr
    simp only [SongHandler.CreateSong, hbind]
    exact statusOf_respond_err _ msg _ _ _ herr rfl
  · cases hbind : c.ShouldBindCreateSongRequest with
    | error e => simp [SongHandler.CreateSong, hbind, statusOf]
    | ok req =>
      simp only [SongHandler.CreateSong, hbind]
      simpa using statusOf_respond_ne _ 400 _ _ (by intro e; simp) (by intro v; simp)
  · intro songID msg hid herr
    simp only [SongHandler.GetSongText, hid]
    exact statusOf_respond_err _ msg _ _ _ herr rfl
  · cases hid : strconv.Atoi (c.Query "song_id") with
    | none => simp [SongHandler.GetSongText, hid, statusOf]
    | some songID =>
      simp only [SongHandler.GetSongText, hid]
      simpa using statusOf_respond_ne _ 400 _ _ (by intro e; simp) (by intro v; simp)

/-- Witness of the amended C3: a DELETE request with the path id "-1" and a
POST request with the group " " are rejected by the service and answered with status 500. -/
theorem handler_status_mapping_witness :
    (strconv.Atoi ((ctxWith "-1" (fun _ => none) " " "s").Param "id") = some (-1) ∧
      (SongService.DeleteSong (envWithText "A" "") (-1) []).1 = Outcome.err "invalid song ID") ∧
    statusOf (SongHandler.DeleteSong (envWithText "A" "") (ctxWith "-1" (fun _ => none) " " "s") [])
      = some 500 ∧
    ((ctxWith "-1" (fun _ => none) " " "s").ShouldBindCreateSongRequest
        = Except.ok { Group := " ", Song := "s" } ∧
      (SongService.CreateSong (envWithText "A" "") { Group := " ", Song := "s" } []).1
        = Outcome.err "group and song name cannot be empty") ∧
    statusOf (SongHandler.CreateSong (envWithText "A" "") (ctxWith "-1" (fun _ => none) " " "s") [])
      = some 500 :=
  have h := handler_status_mapping (envWithText "A" "") (ctxWith "-1" (fun _ => none) " " "s") []
  ⟨⟨by decide, by decide⟩, h.1 (-1) "invalid song ID" (by decide) (by decide),
    ⟨rfl, by decide⟩,
    h.2.2.2.2.1 { Group := " ", Song := "s" } "group and song name cannot be empty" rfl
      (by decide)⟩


theorem SongRepository_GetSongs_trace (env : Env) (group : String) (page limit : Int)
    (tr : List Event) :
    (SongRepository.GetSongs env group page limit tr).2 =
      tr ++ [Event.repoGetSongs group page limit,
        Event.dbQuery (SongRepository.buildGetSongs group page limit).1
          (SongRepository.buildGetSongs group page limit).2] := by
  simp only [SongRepository.GetSongs]
  split <;> simp

theorem buildGetSongs_args (group : String) (page limit : Int) :
    ∃ filter, (SongRepository.buildGetSongs group page limit).2 =
      filter ++ [SqlArg.int limit, SqlArg.int (wrapInt (wrapInt (page - 1) * limit))] := by
  simp only [SongRepository.buildGetSongs]
  split
  · exact ⟨[SqlArg.str ("%" ++ group ++ "%")], by simp⟩
  · exact ⟨[], by simp⟩

/-- C4. Effective listing parameters: for every page and limit, the service
method `GetSongs` enters the storage gateway once, with the group filter
unchanged, the page `1` if `page < 1` and `page` otherwise, and the limit
`limit` if `1 ≤ limit ≤ 100` and `10` otherwise; the statement issued carries
that limit and the offset `(page-1)*limit` computed from them, and the service
returns the songs the gateway returns. -/
theorem GetSongs_effective_parameters (env : Env) (group : String) (page limit : Int)
    (tr : List Event) :
    (SongService.GetSongs env group page limit tr).2 =
      tr ++ [Event.repoGetSongs group (if page < 1 then 1 else page)
          (if 1 ≤ limit ∧ limit ≤ 100 then limit else 10),
        Event.dbQuery
          (SongRepository.buildGetSongs group (if page < 1 then 1 else page)
            (if 1 ≤ limit ∧ limit ≤ 100 then limit else 10)).1
          (SongRepository.buildGetSongs group (if page < 1 then 1 else page)
            (if 1 ≤ limit ∧ limit ≤ 100 then limit else 10)).2] ∧
    (∃ filter,
      (SongRepository.buildGetSongs group (if page < 1 then 1 else page)
          (if 1 ≤ limit ∧ limit ≤ 100 then limit else 10)).2 =
        filter ++ [SqlArg.int (if 1 ≤ limit ∧ limit ≤ 100 then limit else 10),
          SqlArg.int (wrapInt (wrapInt ((if page < 1 then 1 else page) - 1)
            * (if 1 ≤ limit ∧ limit ≤ 100 then limit else 10)))]) ∧
    (∀ songs, (SongService.GetSongs env group page limit tr).1 = Outcome.ok songs ↔
      (SongRepository.GetSongs env group (if page < 1 then 1 else page)
        (if 1 ≤ limit ∧ limit ≤ 100 then limit else 10) tr).1 = Outcome.ok songs) := by
  have hl : (if limit < 1 ∨ limit > 100 then (10 : Int) else limit)
      = (if 1 ≤ limit ∧ limit ≤ 100 then limit else 10) := by
    split <;> split <;> omega
  have htr := SongRepository_GetSongs_trace env group (if page < 1 then 1 else page)
    (if 1 ≤ limit ∧ limit ≤ 100 then limit else 10) tr
  refine ⟨?_, buildGetSongs_args _ _ _, ?_⟩
  · rw [← htr]
    simp only [SongService.GetSongs, hl]
    split <;> simp_all
  · intro songs
    simp only [SongService.GetSongs, hl]
    split <;> simp_all

theorem SongRepository_GetSongText_trace (env : Env) (songID page limit : Int) (tr : List Event) :
    (SongRepository.GetSongText env songID page limit tr).2 =
      tr ++ [Event.repoGetSongText songID page limit,
        Event.dbQueryRow SongRepository.getSongTextQuery [SqlArg.int songID]] := by
  simp only [SongRepository.GetSongText]
  split <;> simp

theorem SongRepository_GetSongText_ok (env : Env) (songID page limit : Int) (tr : List Event)
    (text : String) (h : (SongRepository.GetSongText env songID page limit tr).1 = Outcome.ok text) :
    ∃ fullText, SongRepository.pageOfText fullText page limit = Outcome.ok text := by
  simp only [SongRepository.GetSongText] at h
  split at h
  · simp at h
  · rename_i fullText _
    exact ⟨fullText, h⟩

/-- C5. Effective text-paging parameters: for every id > 0 and every page and
limit, the service method `GetSongText` enters the storage gateway once, with
the page `1` if `page < 1` and `page` otherwise, and the limit `limit` if
`1 ≤ limit ≤ 10` and `3` otherwise; it returns the page the gateway computes
from them, and a returned page holds at most that many verses, hence never
more than 10. -/
theorem GetSongText_effective_parameters (env : Env) (songID page limit : Int) (tr : List Event)
    (hid : 0 < songID) :
    (SongService.GetSongText env songID page limit tr).2 =
      tr ++ [Event.repoGetSongText songID (if page < 1 then 1 else page)
          (if 1 ≤ limit ∧ limit ≤ 10 then limit else 3),
        Event.dbQueryRow SongRepository.getSongTextQuery [SqlArg.int songID]] ∧
    (∀ text, (SongService.GetSongText env songID page limit tr).1 = Outcome.ok text ↔
      (SongRepository.GetSongText env songID (if page < 1 then 1 else page)
        (if 1 ≤ limit ∧ limit ≤ 10 then limit else 3) tr).1 = Outcome.ok text) ∧
    (∀ text, (SongService.GetSongText env songID page limit tr).1 = Outcome.ok text →
      ((strings.Split text "\n\n").length : Int) ≤ (if 1 ≤ limit ∧ limit ≤ 10 then limit else 3) ∧
      (strings.Split text "\n\n").length ≤ 10) := by
  have hl : (if limit < 1 ∨ limit > 10 then (3 : Int) else limit)
      = (if 1 ≤ limit ∧ limit ≤ 10 then limit else 3) := by
    split <;> split <;> omega
  have hid2 : ¬ songID ≤ 0 := by omega
  have htr := SongRepository_GetSongText_trace env songID (if page < 1 then 1 else page)
    (if 1 ≤ limit ∧ limit ≤ 10 then limit else 3) tr
  have hiff : ∀ text, (SongService.GetSongText env songID page limit tr).1 = Outcome.ok text ↔
      (SongRepository.GetSongText env songID (if page < 1 then 1 else page)
        (if 1 ≤ limit ∧ limit ≤ 10 then limit else 3) tr).1 = Outcome.ok text := by
    intro text
    simp only [SongService.GetSongText, if_neg hid2, hl]
    split <;> simp_all
  refine ⟨?_, hiff, ?_⟩
  · rw [← htr]
    simp only [SongService.GetSongText, if_neg hid2, hl]
    split <;> simp_all
  · intro text hok
    obtain ⟨fullText, hpage⟩ := SongRepository_GetSongText_ok env songID _ _ tr text
      ((hiff text).mp hok)
    have hb : (1 : Int) ≤ (if 1 ≤ limit ∧ limit ≤ 10 then limit else 3) ∧
        (if 1 ≤ limit ∧ limit ≤ 10 then limit else 3) ≤ 10 := by
      split <;> omega
    have := pageOfText_ok_length fullText text _ _ hb.1 hb.2 hpage
    exact ⟨this, by omega⟩

/-- Witness of C5: four verses stored under id 1, requested with page 0 and
limit 0, come back as page 1 of three verses. -/
theorem GetSongText_effective_parameters_witness :
    (0 : Int) < 1 ∧
    (SongService.GetSongText (envWithText "A\n\nB\n\nC\n\nD" "") 1 0 0 []).2 =
      [Event.repoGetSongText 1 1 3,
        Event.dbQueryRow SongRepository.getSongTextQuery [SqlArg.int 1]] ∧
    (strings.Split "A\n\nB\n\nC" "\n\n").length ≤ 10 :=
  have h := GetSongText_effective_parameters (envWithText "A\n\nB\n\nC\n\nD" "") 1 0 0 []
    (by decide)
  ⟨by decide, h.1, (h.2.2 "A\n\nB\n\nC" (by decide)).2⟩


/-- C6. Validation precedes enrichment in `CreateSong`: when the group or the
song name of the request is empty after trimming surrounding white space, the
service fails with a validation error and the trace is unchanged: neither the
enrichment client nor the storage gateway is called. -/
theorem CreateSong_validation_precedes_enrichment (env : Env) (req : CreateSongRequest)
    (tr : List Event)
    (h : strings.TrimSpace req.Group = "" ∨ strings.TrimSpace req.Song = "") :
    ∃ msg, isValidationError msg ∧ SongService.CreateSong env req tr = (Outcome.err msg, tr) := by
  refine ⟨"group and song name cannot be empty", Or.inr rfl, ?_⟩
  simp only [SongService.CreateSong]
  rw [if_pos h]

/-- Witness of C6: the request with group " " and song "x". -/
theorem CreateSong_validation_precedes_enrichment_witness :
    (strings.TrimSpace (CreateSongRequest.mk " " "x").Group = "" ∨
      strings.TrimSpace (CreateSongRequest.mk " " "x").Song = "") ∧
    ∃ msg, isValidationError msg ∧
      SongService.CreateSong (envWithText "A" "") (CreateSongRequest.mk " " "x") []
        = (Outcome.err msg, []) :=
  ⟨by decide,
    CreateSong_validation_precedes_enrichment (envWithText "A" "") (CreateSongRequest.mk " " "x") []
      (by decide)⟩

theorem SongRepository_UpdateSong_trace (env : Env) (song : Song) (tr : List Event) :
    (SongRepository.UpdateSong env song tr).2 =
      tr ++ [Event.repoUpdateSong song,
        Event.dbExec SongRepository.updateSongQuery
          [SqlArg.str song.Group, SqlArg.str song.SongName, SqlArg.str song.ReleaseDate,
            SqlArg.str song.Text, SqlArg.str song.Link, SqlArg.int song.ID]] := by
  simp only [SongRepository.UpdateSong]
  repeat' split
  all_goals simp

theorem UpdateSong_valid_trace (env : Env) (songID : Int) (updateData : Song) (tr : List Event)
    (hid : 0 < songID) (hg : strings.TrimSpace updateData.Group ≠ "")
    (hs : strings.TrimSpace updateData.SongName ≠ "") :
    ∃ song, (SongService.UpdateSong env songID updateData tr).2 =
        tr ++ [Event.repoUpdateSong song,
          Event.dbExec SongRepository.updateSongQuery
            [SqlArg.str song.Group, SqlArg.str song.SongName, SqlArg.str song.ReleaseDate,
              SqlArg.str song.Text, SqlArg.str song.Link, SqlArg.int song.ID]] ∧
      song.ID = songID ∧ song.Group = strings.TrimSpace updateData.Group ∧
      song.SongName = strings.TrimSpace updateData.SongName := by
  have hid2 : ¬ songID ≤ 0 := by omega
  have hv : ¬ (strings.TrimSpace updateData.Group = "" ∨ strings.TrimSpace updateData.SongName = "") :=
    by simp [hg, hs]
  simp only [SongService.UpdateSong, if_neg hid2, if_neg hv]
  by_cases hr : updateData.ReleaseDate = ""
  · simp only [hr, if_true]
    refine ⟨Song.mk songID (strings.TrimSpace updateData.Group)
      (strings.TrimSpace updateData.SongName) (env.now tr).Format updateData.Text
      updateData.Link, ?_, rfl, rfl, rfl⟩
    rw [← SongRepository_UpdateSong_trace env _ tr]
    split <;> simp_all
  · simp only [hr, if_false]
    refine ⟨Song.mk songID (strings.TrimSpace updateData.Group)
      (strings.TrimSpace updateData.SongName) updateData.ReleaseDate updateData.Text
      updateData.Link, ?_, rfl, rfl, rfl⟩
    rw [← SongRepository_UpdateSong_trace env _ tr]
    split <;> simp_all

/-- C7. Validation of `UpdateSong` is atomic: when `id ≤ 0`, or the group or
the song name is empty after trimming, the service fails with a validation
error and the trace is unchanged (no storage write); the trace changes only
when `id > 0` and both trimmed names are non-empty, and then the storage
update is invoked once. -/
theorem UpdateSong_validation_atomic (env : Env) (songID : Int) (updateData : Song)
    (tr : List Event) :
    ((songID ≤ 0 ∨ strings.TrimSpace updateData.Group = "" ∨
        strings.TrimSpace updateData.SongName = "") →
      ∃ msg, isValidationError msg ∧
        SongService.UpdateSong env songID updateData tr = (Outcome.err msg, tr)) ∧
    ((SongService.UpdateSong env songID updateData tr).2 ≠ tr →
      0 < songID ∧ strings.TrimSpace updateData.Group ≠ "" ∧
        strings.TrimSpace updateData.SongName ≠ "") ∧
    ((0 < songID ∧ strings.TrimSpace updateData.Group ≠ "" ∧
        strings.TrimSpace updateData.SongName ≠ "") →
      ∃ song, (SongService.UpdateSong env songID updateData tr).2 =
        tr ++ [Event.repoUpdateSong song,
          Event.dbExec SongRepository.updateSongQuery
            [SqlArg.str song.Group, SqlArg.str song.SongName, SqlArg.str song.ReleaseDate,
              SqlArg.str song.Text, SqlArg.str song.Link, SqlArg.int song.ID]]) := by
  have hinv : (songID ≤ 0 ∨ strings.TrimSpace updateData.Group = "" ∨
        strings.TrimSpace updateData.SongName = "") →
      ∃ msg, isValidationError msg ∧
        SongService.UpdateSong env songID updateData tr = (Outcome.err msg, tr) := by
    intro h
    by_cases hid : songID ≤ 0
    · refine ⟨"invalid song ID", Or.inl rfl, ?_⟩
      simp only [SongService.UpdateSong]
      rw [if_pos hid]
    · have hv : strings.TrimSpace updateData.Group = "" ∨
          strings.TrimSpace updateData.SongName = "" := by
        rcases h with h | h
        · exact absurd h hid
        · exact h
      refine ⟨"group and song name cannot be empty", Or.inr rfl, ?_⟩
      simp only [SongService.UpdateSong, if_neg hid]
      rw [if_pos hv]
  refine ⟨hinv, ?_, ?_⟩
  · intro hne
    by_contra hcon
    have : songID ≤ 0 ∨ strings.TrimSpace updateData.Group = "" ∨
        strings.TrimSpace updateData.SongName = "" := by
      by_cases h1 : songID ≤ 0
      · exact Or.inl h1
      · by_cases h2 : strings.TrimSpace updateData.Group = ""
        · exact Or.inr (Or.inl h2)
        · by_cases h3 : strings.TrimSpace updateData.SongName = ""
          · exact Or.inr (Or.inr h3)
          · exact absurd ⟨by omega, h2, h3⟩ hcon
    obtain ⟨msg, _, heq⟩ := hinv this
    rw [heq] at hne
    exact hne rfl
  · intro hv
    obtain ⟨song, h, _⟩ := UpdateSong_valid_trace env songID updateData tr hv.1 hv.2.1 hv.2.2
    exact ⟨song, h⟩

/-- Witness of C7: `UpdateSong` with id 5, group "" and song "x". -/
theorem UpdateSong_validation_atomic_witness :
    ((5 : Int) ≤ 0 ∨ strings.TrimSpace (Song.mk 9 "" "x" "" "" "").Group = "" ∨
      strings.TrimSpace (Song.mk 9 "" "x" "" "" "").SongName = "") ∧
    ∃ msg, isValidationError msg ∧
      SongService.UpdateSong (envWithText "A" "") 5 (Song.mk 9 "" "x" "" "" "") []
        = (Outcome.err msg, []) :=
  ⟨by decide,
    (UpdateSong_validation_atomic (envWithText "A" "") 5 (Song.mk 9 "" "x" "" "" "") []).1
      (by decide)⟩

/-- C8. Validation of the id in `DeleteSong`: for `id ≤ 0` the service fails
with the validation error "invalid song ID" and the trace is unchanged (no
storage call); for `id > 0` it calls the storage delete exactly once, with the
same id, and returns an error exactly when that call does. -/
theorem DeleteSong_id_validation (env : Env) (songID : Int) (tr : List Event) :
    (songID ≤ 0 →
      isValidationError "invalid song ID" ∧
        SongService.DeleteSong env songID tr = (Outcome.err "invalid song ID", tr)) ∧
    (0 < songID →
      (SongService.DeleteSong env songID tr).2 =
          tr ++ [Event.repoDeleteSong songID,
            Event.dbExec SongRepository.deleteSongQuery [SqlArg.int songID]] ∧
        (SongService.DeleteSong env songID tr).2 = (SongRepository.DeleteSong env songID tr).2 ∧
        (SongService.DeleteSong env songID tr).1.isErr
          = (SongRepository.DeleteSong env songID tr).1.isErr ∧
        ((SongService.DeleteSong env songID tr).1 = Outcome.ok () ↔
          (SongRepository.DeleteSong env songID tr).1 = Outcome.ok ())) := by
  constructor
  · intro hid
    refine ⟨Or.inl rfl, ?_⟩
    simp only [SongService.DeleteSong]
    rw [if_pos hid]
  · intro hid
    have hid2 : ¬ songID ≤ 0 := by omega
    have htr : (SongRepository.DeleteSong env songID tr).2 =
        tr ++ [Event.repoDeleteSong songID,
          Event.dbExec SongRepository.deleteSongQuery [SqlArg.int songID]] := by
      simp only [SongRepository.DeleteSong]
      repeat' split
      all_goals simp
    rw [← htr]
    simp only [SongService.DeleteSong, if_neg hid2]
    split <;> simp_all [Outcome.isErr]

/-- Witness of C8: `DeleteSong` with id -1, and with id 1 on a database in
which the statement deletes one row. -/
theorem DeleteSong_id_validation_witness :
    ((-1 : Int) ≤ 0 ∧
      SongService.DeleteSong (envWithText "A" "") (-1) [] = (Outcome.err "invalid song ID", [])) ∧
    ((0 : Int) < 1 ∧
      (SongService.DeleteSong (envWithText "A" "") 1 []).2 =
        [] ++ [Event.repoDeleteSong 1,
          Event.dbExec SongRepository.deleteSongQuery [SqlArg.int 1]]) :=
  ⟨⟨by decide, ((DeleteSong_id_validation (envWithText "A" "") (-1) []).1 (by decide)).2⟩,
    ⟨by decide, ((DeleteSong_id_validation (envWithText "A" "") 1 []).2 (by decide)).1⟩⟩


theorem songsWritten_append (a b : List Event) :
    songsWritten (a ++ b) = songsWritten a ++ songsWritten b := by
  induction a with
  | nil => simp [songsWritten]
  | cons e rest ih => cases e <;> simp [songsWritten, ih]

theorem GetSongDetails_trace (env : Env) (group song : String) (tr : List Event) :
    ∃ ev, (ExternalAPIService.GetSongDetails env group song tr).2 = tr ++ ev ∧
      songsWritten ev = [] := by
  cases h1 : env.httpNewRequest (env.baseURL ++ "/info?group=" ++ group ++ "&song=" ++ song) with
  | some e =>
    refine ⟨[Event.apiGetSongDetails group song], ?_, rfl⟩
    simp only [ExternalAPIService.GetSongDetails, h1]
  | none =>
    refine ⟨[Event.apiGetSongDetails group song,
      Event.httpGet (env.baseURL ++ "/info?group=" ++ group ++ "&song=" ++ song)], ?_, rfl⟩
    simp only [ExternalAPIService.GetSongDetails, h1]
    repeat' split
    all_goals simp

theorem SongRepository_CreateSong_trace (env : Env) (song : Song) (tr : List Event) :
    (SongRepository.CreateSong env song tr).2 =
      tr ++ [Event.repoCreateSong song,
        Event.dbQueryRow SongRepository.createSongQuery
          [SqlArg.str song.Group, SqlArg.str song.SongName, SqlArg.str song.ReleaseDate,
            SqlArg.str song.Text, SqlArg.str song.Link]] := by
  simp only [SongRepository.CreateSong]
  split <;> simp

theorem CreateSong_written (env : Env) (req : CreateSongRequest) (tr : List Event) :
    ∃ new, (SongService.CreateSong env req tr).2 = tr ++ new ∧
      ∀ song ∈ songsWritten new,
        song.Group = strings.TrimSpace req.Group ∧ song.SongName = strings.TrimSpace req.Song ∧
          song.Group ≠ "" ∧ song.SongName ≠ "" := by
  by_cases hv : strings.TrimSpace req.Group = "" ∨ strings.TrimSpace req.Song = ""
  · refine ⟨[], ?_, by simp [songsWritten]⟩
    simp only [SongService.CreateSong]
    rw [if_pos hv]
    simp
  · obtain ⟨ev, hev, hw⟩ := GetSongDetails_trace env (strings.TrimSpace req.Group)
      (strings.TrimSpace req.Song) tr
    have hg : strings.TrimSpace req.Group ≠ "" := fun h => hv (Or.inl h)
    have hs : strings.TrimSpace req.Song ≠ "" := fun h => hv (Or.inr h)
    simp only [SongService.CreateSong, if_neg hv]
    rcases hapi : ExternalAPIService.GetSongDetails env (strings.TrimSpace req.Group)
      (strings.TrimSpace req.Song) tr with ⟨o, tr1⟩
    rw [hapi] at hev
    simp only at hev
    cases o with
    | err e => exact ⟨ev, by simpa using hev, by simp [hw]⟩
    | panicked m => exact ⟨ev, by simpa using hev, by simp [hw]⟩
    | ok details =>
      simp only
      generalize hsong : (Song.mk 0 (strings.TrimSpace req.Group) (strings.TrimSpace req.Song)
        (if details.ReleaseDate = "" then (env.now tr1).Format else details.ReleaseDate)
        details.Text details.Link) = song
      have htr := SongRepository_CreateSong_trace env song tr1
      refine ⟨ev ++ [Event.repoCreateSong song,
        Event.dbQueryRow SongRepository.createSongQuery
          [SqlArg.str song.Group, SqlArg.str song.SongName, SqlArg.str song.ReleaseDate,
            SqlArg.str song.Text, SqlArg.str song.Link]], ?_, ?_⟩
      · rw [← List.append_assoc, ← hev, ← htr]
        split <;> simp_all
      · intro s hs2
        simp only [songsWritten_append, hw, songsWritten, List.nil_append,
          List.mem_singleton] at hs2
        subst hs2
        subst hsong
        exact ⟨rfl, rfl, hg, hs⟩

theorem UpdateSong_written (env : Env) (songID : Int) (updateData : Song) (tr : List Event) :
    ∃ new, (SongService.UpdateSong env songID updateData tr).2 = tr ++ new ∧
      ∀ song ∈ songsWritten new,
        song.Group = strings.TrimSpace updateData.Group ∧
          song.SongName = strings.TrimSpace updateData.SongName ∧
          song.Group ≠ "" ∧ song.SongName ≠ "" ∧ song.ID = songID := by
  by_cases hv : 0 < songID ∧ strings.TrimSpace updateData.Group ≠ "" ∧
      strings.TrimSpace updateData.SongName ≠ ""
  · obtain ⟨song, htr, h1, h2, h3⟩ :=
      UpdateSong_valid_trace env songID updateData tr hv.1 hv.2.1 hv.2.2
    refine ⟨_, htr, ?_⟩
    intro s hs
    simp only [songsWritten, List.mem_singleton] at hs
    subst hs
    exact ⟨h2, h3, h2 ▸ hv.2.1, h3 ▸ hv.2.2, h1⟩
  · refine ⟨[], ?_, by simp [songsWritten]⟩
    simp only [SongService.UpdateSong]
    by_cases hid : songID ≤ 0
    · rw [if_pos hid]; simp
    · rw [if_neg hid]
      have : strings.TrimSpace updateData.Group = "" ∨
          strings.TrimSpace updateData.SongName = "" := by
        by_contra hc
        push_neg at hc
        exact hv ⟨by omega, hc.1, hc.2⟩
      rw [if_pos this]
      simp

/-- C9. Persisted-name invariant: every song that `CreateSong` or `UpdateSong`
hands to the storage gateway has a group and a song name equal to the trimmed
request values, non-empty, and without leading or trailing white space; for
`UpdateSong` its identifier is the id argument, whatever id the body carries. -/
theorem persisted_names_trimmed (env : Env) (req : CreateSongRequest) (songID : Int)
    (updateData : Song) (tr : List Event) :
    (∃ new, (SongService.CreateSong env req tr).2 = tr ++ new ∧
      ∀ song ∈ songsWritten new,
        song.Group = strings.TrimSpace req.Group ∧ song.SongName = strings.TrimSpace req.Song ∧
          song.Group ≠ "" ∧ song.SongName ≠ "" ∧
          NoSurroundingSpace song.Group ∧ NoSurroundingSpace song.SongName) ∧
    (∃ new, (SongService.UpdateSong env songID updateData tr).2 = tr ++ new ∧
      ∀ song ∈ songsWritten new,
        song.Group = strings.TrimSpace updateData.Group ∧
          song.SongName = strings.TrimSpace updateData.SongName ∧
          song.Group ≠ "" ∧ song.SongName ≠ "" ∧
          NoSurroundingSpace song.Group ∧ NoSurroundingSpace song.SongName ∧
          song.ID = songID) := by
  constructor
  · obtain ⟨new, htr, h⟩ := CreateSong_written env req tr
    refine ⟨new, htr, ?_⟩
    intro song hs
    obtain ⟨h1, h2, h3, h4⟩ := h song hs
    exact ⟨h1, h2, h3, h4, h1 ▸ TrimSpace_noSurroundingSpace _,
      h2 ▸ TrimSpace_noSurroundingSpace _⟩
  · obtain ⟨new, htr, h⟩ := UpdateSong_written env songID updateData tr
    refine ⟨new, htr, ?_⟩
    intro song hs
    obtain ⟨h1, h2, h3, h4, h5⟩ := h song hs
    exact ⟨h1, h2, h3, h4, h1 ▸ TrimSpace_noSurroundingSpace _,
      h2 ▸ TrimSpace_noSurroundingSpace _, h5⟩


/-- Witness of C9: a create request and an update body with surrounding white
space reach the storage gateway trimmed, the update under the id argument 5
and not under the id 9 of the body. -/
theorem persisted_names_trimmed_witness :
    songsWritten (SongService.CreateSong (envWithText "A" "") (CreateSongRequest.mk " g " "s\t") []).2
      = [Song.mk 0 "g" "s" "07.03.2024" "A" "https://example.org/x"] ∧
    songsWritten (SongService.UpdateSong (envWithText "A" "") 5 (Song.mk 9 " g" "s " "" "" "") []).2
      = [Song.mk 5 "g" "s" "07.03.2024" "" ""] ∧
    ∃ new, (SongService.UpdateSong (envWithText "A" "") 5 (Song.mk 9 " g" "s " "" "" "") []).2
        = [] ++ new ∧
      ∀ song ∈ songsWritten new,
        song.Group = strings.TrimSpace (Song.mk 9 " g" "s " "" "" "").Group ∧
          song.SongName = strings.TrimSpace (Song.mk 9 " g" "s " "" "" "").SongName ∧
          song.Group ≠ "" ∧ song.SongName ≠ "" ∧
          NoSurroundingSpace song.Group ∧ NoSurroundingSpace song.SongName ∧ song.ID = 5 :=
  ⟨by decide, by decide,
    (persisted_names_trimmed (envWithText "A" "") (CreateSongRequest.mk " g " "s\t") 5
      (Song.mk 9 " g" "s " "" "" "") []).2⟩

/-- C10. Release-date default on create: for a valid create request for which
the enrichment client succeeds and the storage insert succeeds, `CreateSong`
returns the stored song; when the enrichment release date is empty, the
release date of the song handed to storage and returned is the current date
(the clock read after the enrichment call) in the layout DD.MM.YYYY, and when
it is not empty it is stored and returned unchanged. -/
theorem CreateSong_release_date_default (env : Env) (req : CreateSongRequest) (tr tr1 : List Event)
    (details : Song) (id : Int)
    (hg : strings.TrimSpace req.Group ≠ "") (hs : strings.TrimSpace req.Song ≠ "")
    (hapi : ExternalAPIService.GetSongDetails env (strings.TrimSpace req.Group)
      (strings.TrimSpace req.Song) tr = (Outcome.ok details, tr1))
    (hstore : ∀ date : String,
      env.dbQueryRowInt
        (tr1 ++ [Event.repoCreateSong (Song.mk 0 (strings.TrimSpace req.Group)
          (strings.TrimSpace req.Song) date details.Text details.Link)])
        SongRepository.createSongQuery
        [SqlArg.str (strings.TrimSpace req.Group), SqlArg.str (strings.TrimSpace req.Song),
          SqlArg.str date, SqlArg.str details.Text, SqlArg.str details.Link] = Except.ok id) :
    (details.ReleaseDate = "" →
      (SongService.CreateSong env req tr).1 =
          Outcome.ok (Song.mk id (strings.TrimSpace req.Group) (strings.TrimSpace req.Song)
            (env.now tr1).Format details.Text details.Link) ∧
        Event.repoCreateSong (Song.mk 0 (strings.TrimSpace req.Group) (strings.TrimSpace req.Song)
          (env.now tr1).Format details.Text details.Link)
          ∈ (SongService.CreateSong env req tr).2) ∧
    (details.ReleaseDate ≠ "" →
      (SongService.CreateSong env req tr).1 =
          Outcome.ok (Song.mk id (strings.TrimSpace req.Group) (strings.TrimSpace req.Song)
            details.ReleaseDate details.Text details.Link) ∧
        Event.repoCreateSong (Song.mk 0 (strings.TrimSpace req.Group) (strings.TrimSpace req.Song)
          details.ReleaseDate details.Text details.Link)
          ∈ (SongService.CreateSong env req tr).2) := by
  have hv : ¬ (strings.TrimSpace req.Group = "" ∨ strings.TrimSpace req.Song = "") := by
    simp [hg, hs]
  refine ⟨?_, ?_⟩
  · intro hd
    have h := hstore (env.now tr1).Format
    simp only [SongService.CreateSong, if_neg hv, hapi, hd, if_true, SongRepository.CreateSong, h]
    simp
  · intro hd
    have h := hstore details.ReleaseDate
    simp only [SongService.CreateSong, if_neg hv, hapi, hd, if_false, SongRepository.CreateSong, h]
    simp

/-- Witness of C10: the enrichment API answers with an empty release date on 7
March 2024, and the song comes back with the release date "07.03.2024". -/
theorem CreateSong_release_date_default_witness :
    (strings.TrimSpace (CreateSongRequest.mk "g " " s").Group ≠ "" ∧
      strings.TrimSpace (CreateSongRequest.mk "g " " s").Song ≠ "") ∧
    (SongService.CreateSong (envWithText "A" "") (CreateSongRequest.mk "g " " s") []).1 =
      Outcome.ok (Song.mk 1 "g" "s" "07.03.2024" "A" "https://example.org/x") :=
  have h := CreateSong_release_date_default (envWithText "A" "") (CreateSongRequest.mk "g " " s") []
    [Event.apiGetSongDetails "g" "s", Event.httpGet "http://localhost:8081/info?group=g&song=s"]
    (Song.mk 0 "" "" "" "A" "https://example.org/x") 1 (by decide) (by decide) (by decide)
    (fun _ => rfl)
  ⟨⟨by decide, by decide⟩, (h.1 rfl).1.trans (by decide)⟩

theorem pageOfText_overflow (text : String) :
    SongRepository.pageOfText text 9223372036854775807 2
      = Outcome.panicked "slice bounds out of range" := by
  have hs : wrapInt (wrapInt (9223372036854775807 - 1) * 2) = -4 := by decide
  have he : wrapInt (-4 + 2) = -2 := by decide
  simp only [SongRepository.pageOfText, hs, he]
  rw [if_neg (by omega), if_neg (by omega)]
  simp [sliceOf]

/-- C11, at a failing input. The request
`song_id=1&page=9223372036854775807&limit=2` passes `strconv.Atoi` and the
clamping of the service unchanged; in the repository `start = (page-1)*limit`
wraps to `-4` and `end` to `-2`, the range check `start >= len(verses)` does
not fire, and the slice expression `verses[start:end]` is reached with a
negative `start`: for every stored text the call panics instead of returning
the out-of-range error or a page. -/
theorem GetSongText_slice_bounds_violated (text : String) :
    strconv.Atoi "9223372036854775807" = some 9223372036854775807 ∧
    wrapInt (wrapInt (9223372036854775807 - 1) * 2) = -4 ∧
    wrapInt (-4 + 2) = -2 ∧
    ¬ ((-4 : Int) ≥ ((strings.Split text "\n\n").length : Int)) ∧
    sliceOf (strings.Split text "\n\n") (-4) (-2) = none ∧
    (SongRepository.GetSongText (envWithText text "") 1 9223372036854775807 2 []).1
      = Outcome.panicked "slice bounds out of range" ∧
    (SongService.GetSongText (envWithText text "") 1 9223372036854775807 2 []).1
      = Outcome.panicked "slice bounds out of range" ∧
    (SongHandler.GetSongText (envWithText text "") (ctxWith "" overflowQuery "" "") []).1
      = Outcome.panicked "slice bounds out of range" := by
  have hrepo : (SongRepository.GetSongText (envWithText text "") 1 9223372036854775807 2 []).1
      = Outcome.panicked "slice bounds out of range" := by
    simp only [SongRepository.GetSongText, envWithText]
    exact pageOfText_overflow text
  have hsvc : (SongService.GetSongText (envWithText text "") 1 9223372036854775807 2 []).1
      = Outcome.panicked "slice bounds out of range" := by
    have h1 : ¬ ((1 : Int) ≤ 0) := by decide
    have h2 : ¬ ((9223372036854775807 : Int) < 1) := by decide
    have h3 : ¬ ((2 : Int) < 1 ∨ (2 : Int) > 10) := by decide
    simp only [SongService.GetSongText, if_neg h1, if_neg h2, if_neg h3]
    split <;> simp_all
  refine ⟨by decide, by decide, by decide, by omega, by simp [sliceOf], hrepo, hsvc, ?_⟩
  have ha : strconv.Atoi ((ctxWith "" overflowQuery "" "").Query "song_id") = some 1 := by decide
  have hp : (strconv.Atoi ((ctxWith "" overflowQuery "" "").DefaultQuery "page" "1")).getD 1
      = 9223372036854775807 := by decide
  have hl : (strconv.Atoi ((ctxWith "" overflowQuery "" "").DefaultQuery "limit" "3")).getD 3
      = 2 := by decide
  simp only [SongHandler.GetSongText, ha, hp, hl]
  rcases hr : SongService.GetSongText (envWithText text "") 1 9223372036854775807 2 []
    with ⟨o, t⟩
  rw [hr] at hsvc
  simp only at hsvc
  subst hsvc
  simp [respond]

end MusicLibrary
